import Mathlib

/-!
Verification of the verilog-to-Turing-Complete compiler core.

This file gives a shallow embedding, in Lean 4, of the parts of the
TypeScript source that the verified properties talk about:

* the wire densifier and run-length encoder of
  `src/pipeline/verilogToTc.ts` (`densify`, `encodeWire`),
* the component serialization of the same file (`toTcComponents`,
  `optimizeNetlist`),
* the netlist model operations and the lowering pass of
  `src/netlist/adapter.ts` (`registerSource`, `packBits`, `unpackBits`,
  comparison-cell lowering, `optimizeMakerSplitterPairs`,
  `cleanupRedundantComponents`, `buildNetlistFromYosys`),
* the hierarchy driver's identifier assignment and compile ordering
  (`hashStringId` and the dependency loop of the CLI driver).

JavaScript `Map`s are modelled as association lists with JS insertion-order
semantics, exceptions as `Except String`, bigints and doubles that hold grid
coordinates as `Int`, and loops either as structural recursion or as
recursion on an explicit fuel bound (the fuel is always instantiated large
enough that it is never exhausted on the inputs the theorems speak about).
-/

/-- Integer grid point, `TCPoint` of `src/tc/types.ts` as used throughout
`src/pipeline/verilogToTc.ts` (coordinates are integers on the grid). -/
structure TCPoint where
  x : Int
  y : Int
deriving DecidableEq, Repr

/-- The eight compass directions in source order (E, SE, S, SW, W, NW, N, NE;
positive y grows down), `DIRECTIONS` of `src/pipeline/verilogToTc.ts`. -/
def DIRECTIONS : List TCPoint :=
  [⟨1, 0⟩, ⟨1, 1⟩, ⟨0, 1⟩, ⟨-1, 1⟩, ⟨-1, 0⟩, ⟨-1, -1⟩, ⟨0, -1⟩, ⟨1, -1⟩]

/-- Consecutive pairs of a list; models the `for (i = 0; i < n - 1; i++)`
iteration over `points[i], points[i+1]` used by `densify` and `encodeWire`. -/
def consecPairs {α : Type} : List α → List (α × α)
  | a :: b :: rest => (a, b) :: consecPairs (b :: rest)
  | _ => []

/-- Unit-step expansion of one segment: the inner loop of `densify`
(`src/pipeline/verilogToTc.ts` lines 235-240) that pushes
`current + step * s` for `s = 1 .. max(|dx|, |dy|)`. -/
def segSteps (current next : TCPoint) : List TCPoint :=
  let dx := next.x - current.x
  let dy := next.y - current.y
  let stepX := Int.sign dx
  let stepY := Int.sign dy
  let steps := max dx.natAbs dy.natAbs
  (List.range steps).map
    (fun (s : Nat) => ⟨current.x + stepX * ((s : Int) + 1), current.y + stepY * ((s : Int) + 1)⟩)

/-- One iteration of the `densify` loop body for the pair `(current, next)`
(`src/pipeline/verilogToTc.ts` lines 224-241): a diagonal segment is broken
at the horizontally-moved midpoint `(next.x, current.y)` into two orthogonal
segments (the recursive `densify [current, mid]` / `densify [mid, next]`
calls of the source act on two-point orthogonal lists, where they reduce to
`segSteps`); an orthogonal segment is expanded directly. -/
def densifyPair (current next : TCPoint) : List TCPoint :=
  if next.x - current.x ≠ 0 ∧ next.y - current.y ≠ 0 then
    let mid : TCPoint := ⟨next.x, current.y⟩
    segSteps current mid ++ segSteps mid next
  else
    segSteps current next

/-- The densifier `densify` of `src/pipeline/verilogToTc.ts` (lines 218-243):
a list with fewer than two points is returned unchanged, otherwise the first
point followed by the concatenated per-segment unit-step expansions. -/
def densify (points : List TCPoint) : List TCPoint :=
  match points with
  | [] => []
  | p :: rest => p :: ((consecPairs (p :: rest)).map (fun pr => densifyPair pr.1 pr.2)).flatten

/-- Difference vector `b - a` of two grid points. -/
def ptSub (b a : TCPoint) : TCPoint := ⟨b.x - a.x, b.y - a.y⟩

/-- Sum of two grid points / vectors. -/
def ptAdd (a b : TCPoint) : TCPoint := ⟨a.x + b.x, a.y + b.y⟩

/-- The list of move vectors between consecutive points of a path; `encodeWire`
computes these as `dirVec` / `nextVec` (`src/pipeline/verilogToTc.ts` lines
253-256 and 264-267). -/
def movesOf (path : List TCPoint) : List TCPoint :=
  (consecPairs path).map (fun pr => ptSub pr.2 pr.1)

/-- Direction lookup `DIRECTIONS.findIndex` of `encodeWire`
(`src/pipeline/verilogToTc.ts` line 257); `none` models the -1 / thrown
error case. -/
def dirIndex (v : TCPoint) : Option Nat :=
  DIRECTIONS.findIdx? (fun d => decide (d = v))

/-- Length of the leading run of moves equal to `d`, capped at `cap`; models
the inner `while (length < maxLength)` loop of `encodeWire`
(`src/pipeline/verilogToTc.ts` lines 262-272) counting consecutive equal
move vectors. -/
def countRun (d : TCPoint) : List TCPoint → Nat → Nat
  | _, 0 => 0
  | [], _ => 0
  | m :: rest, cap + 1 => if m = d then countRun d rest cap + 1 else 0

/-- The run-length encoding loop of `encodeWire`
(`src/pipeline/verilogToTc.ts` lines 251-276) over the list of unit moves of
the densified path: each step takes the leading run of equal moves (at most
31 = `0b11111` of them), emits the byte `(direction << 5) | length`, and the
final `body.push(0)` terminator is the `[0]` of the base case. `fuel` bounds
the number of loop iterations; each iteration consumes at least one move, so
`moves.length + 1` fuel always suffices. -/
def encodeRuns (fuel : Nat) (moves : List TCPoint) : Option (List Nat) :=
  match fuel with
  | 0 => none
  | fuel + 1 =>
    match moves with
    | [] => some [0]
    | d :: rest =>
      match dirIndex d with
      | none => none
      | some direction =>
        let cr := countRun d rest 30
        let len := 1 + cr
        match encodeRuns fuel (rest.drop cr) with
        | none => none
        | some tail => some (((direction <<< 5) ||| len) :: tail)

/-- The wire body encoder `encodeWire` of `src/pipeline/verilogToTc.ts`
(lines 245-278): fewer than two points is an error (`none`); otherwise the
points are densified and run-length encoded. -/
def encodeWire (points : List TCPoint) : Option (List Nat) :=
  if points.length < 2 then none
  else
    let path := densify points
    encodeRuns ((movesOf path).length + 1) (movesOf path)

/-- Points reached by walking `len` unit steps of `dir` from `p` (the point
after step `s+1` is `p + dir * (s+1)`). -/
def runPoints (p dir : TCPoint) (len : Nat) : List TCPoint :=
  (List.range len).map
    (fun (s : Nat) => ⟨p.x + dir.x * ((s : Int) + 1), p.y + dir.y * ((s : Int) + 1)⟩)

/-- Modelled from the spec: the save format describes each wire-body byte as
packing a 3-bit compass direction index and a 5-bit run length, terminated
by a zero byte (spec sections 4.5 and 8); no decoder exists in the source, so
this replay function is the spec's reading of the byte stream: while the
byte is nonzero, walk `byte % 32` unit steps in direction
`DIRECTIONS[byte / 32]`. -/
def replayRuns (p : TCPoint) : List Nat → List TCPoint
  | [] => []
  | b :: rest =>
    if b = 0 then []
    else
      let dir := DIRECTIONS.getD (b / 32) ⟨0, 0⟩
      let len := b % 32
      runPoints p dir len ++
        replayRuns ⟨p.x + dir.x * (len : Int), p.y + dir.y * (len : Int)⟩ rest

/-- Modelled from the spec: full decode of a wire body from its start point
(the start point followed by the replayed run points). -/
def decodeWire (start : TCPoint) (body : List Nat) : List TCPoint :=
  start :: replayRuns start body

/-- A unit move in one of the four cardinal directions (the only moves the
densifier produces). -/
def unitCardinal (m : TCPoint) : Prop :=
  m = ⟨1, 0⟩ ∨ m = ⟨0, 1⟩ ∨ m = ⟨-1, 0⟩ ∨ m = ⟨0, -1⟩

/-- Points visited after `p` when applying a list of move vectors in order. -/
def pathPoints (p : TCPoint) : List TCPoint → List TCPoint
  | [] => []
  | m :: rest => ptAdd p m :: pathPoints (ptAdd p m) rest

example : densify [⟨0, 0⟩, ⟨3, 0⟩] = [⟨0, 0⟩, ⟨1, 0⟩, ⟨2, 0⟩, ⟨3, 0⟩] := by decide

example : densify [⟨0, 0⟩, ⟨2, 2⟩] =
    [⟨0, 0⟩, ⟨1, 0⟩, ⟨2, 0⟩, ⟨2, 1⟩, ⟨2, 2⟩] := by decide

example : encodeWire [⟨0, 0⟩, ⟨3, 0⟩] = some [3, 0] := by decide

example : encodeWire [⟨0, 0⟩, ⟨2, 2⟩] = some [2, 66, 0] := by decide

example : decodeWire ⟨0, 0⟩ [2, 66, 0] =
    [⟨0, 0⟩, ⟨1, 0⟩, ⟨2, 0⟩, ⟨2, 1⟩, ⟨2, 2⟩] := by decide

lemma ptAdd_ptSub (a b : TCPoint) : ptAdd a (ptSub b a) = b := by
  cases a; cases b
  simp only [ptAdd, ptSub, TCPoint.mk.injEq]
  constructor <;> ring

lemma movesOf_cons_cons (a b : TCPoint) (l : List TCPoint) :
    movesOf (a :: b :: l) = ptSub b a :: movesOf (b :: l) := rfl

lemma runPoints_succ (p d : TCPoint) (n : Nat) :
    runPoints p d (n + 1) = ptAdd p d :: runPoints (ptAdd p d) d n := by
  unfold runPoints
  rw [List.range_succ_eq_map]
  simp only [List.map_cons, List.map_map]
  refine congrArg₂ List.cons ?_ ?_
  · simp only [ptAdd, TCPoint.mk.injEq]
    push_cast
    constructor <;> ring
  · refine List.map_congr_left (fun s _ => ?_)
    simp only [Function.comp_apply, TCPoint.mk.injEq, ptAdd]
    push_cast
    constructor <;> ring

lemma movesOf_cons_runPoints (d : TCPoint) :
    ∀ (n : Nat) (a : TCPoint), movesOf (a :: runPoints a d n) = List.replicate n d := by
  intro n
  induction n with
  | zero => intro a; rfl
  | succ k ih =>
    intro a
    rw [runPoints_succ, movesOf_cons_cons, ih (ptAdd a d)]
    have : ptSub (ptAdd a d) a = d := by
      cases a; cases d
      simp only [ptSub, ptAdd, TCPoint.mk.injEq]
      constructor <;> ring
    rw [this, List.replicate_succ]

lemma getLast?_cons_runPoints (d : TCPoint) :
    ∀ (n : Nat) (a : TCPoint),
      (a :: runPoints a d n).getLast? = some ⟨a.x + d.x * n, a.y + d.y * n⟩ := by
  intro n
  induction n with
  | zero =>
    intro a
    have h0 : runPoints a d 0 = [] := rfl
    obtain ⟨ax, ay⟩ := a
    rw [h0]
    simp only [List.getLast?_singleton, Option.some.injEq, TCPoint.mk.injEq]
    push_cast
    constructor <;> ring
  | succ k ih =>
    intro a
    rw [runPoints_succ]
    have h1 : (a :: ptAdd a d :: runPoints (ptAdd a d) d k).getLast? =
        (ptAdd a d :: runPoints (ptAdd a d) d k).getLast? := List.getLast?_cons_cons ..
    rw [h1, ih (ptAdd a d)]
    simp only [Option.some.injEq, TCPoint.mk.injEq, ptAdd]
    push_cast
    constructor <;> ring

/-- A block of intermediate points `l` forms a dense path from `a` to `b`:
every consecutive move of `a :: l` is a cardinal unit move and the walk ends
at `b`. -/
def goodPath (a : TCPoint) (l : List TCPoint) (b : TCPoint) : Prop :=
  (∀ m ∈ movesOf (a :: l), unitCardinal m) ∧ (a :: l).getLast? = some b

lemma movesOf_cons_append (l1 : List TCPoint) :
    ∀ (a c : TCPoint) (l2 : List TCPoint),
      movesOf (a :: (l1 ++ l2)) =
        movesOf (a :: l1) ++ movesOf ((a :: l1).getLastD c :: l2) := by
  induction l1 with
  | nil =>
    intro a c l2
    have h1 : movesOf [a] = [] := rfl
    simp [List.getLastD, h1]
  | cons b l1' ih =>
    intro a c l2
    have e1 : ((b :: l1') ++ l2 : List TCPoint) = b :: (l1' ++ l2) := rfl
    have e2 : (a :: b :: l1').getLastD c = (b :: l1').getLastD c := by
      rw [List.getLastD_cons, List.getLastD_cons, List.getLastD_cons]
    rw [e1, movesOf_cons_cons, ih b c l2, e2, movesOf_cons_cons, List.cons_append]

lemma getLastD_eq_of_getLast? {l : List TCPoint} {b : TCPoint} (c : TCPoint)
    (h : l.getLast? = some b) : l.getLastD c = b := by
  cases l with
  | nil => simp at h
  | cons x xs =>
    rw [List.getLastD_eq_getLast?]
    simp [h]

lemma goodPath_append {a b c : TCPoint} {l1 l2 : List TCPoint}
    (h1 : goodPath a l1 b) (h2 : goodPath b l2 c) :
    goodPath a (l1 ++ l2) c := by
  obtain ⟨hm1, hl1⟩ := h1
  obtain ⟨hm2, hl2⟩ := h2
  constructor
  · intro m hm
    rw [show a :: (l1 ++ l2) = a :: l1 ++ l2 by simp,
      show a :: l1 ++ l2 = a :: (l1 ++ l2) by simp] at hm
    rw [movesOf_cons_append l1 a a l2] at hm
    rcases List.mem_append.mp hm with h | h
    · exact hm1 m h
    · rw [getLastD_eq_of_getLast? a hl1] at h
      exact hm2 m h
  · cases l2 with
    | nil =>
      simp only [List.getLast?_singleton, Option.some.injEq] at hl2
      rw [List.append_nil, ← hl2]
      exact hl1
    | cons y ys =>
      have hne : (y :: ys : List TCPoint) ≠ [] := by simp
      have : (a :: (l1 ++ y :: ys)).getLast? = (y :: ys).getLast? := by
        rw [show a :: (l1 ++ y :: ys) = (a :: l1) ++ (y :: ys) by simp]
        exact List.getLast?_append_of_ne_nil _ hne
      rw [this]
      have : (b :: y :: ys).getLast? = (y :: ys).getLast? := List.getLast?_cons_cons ..
      rw [← this]
      exact hl2

lemma TCPoint.ext_xy {a b : TCPoint} (hx : a.x = b.x) (hy : a.y = b.y) : a = b := by
  cases a; cases b
  simp_all

lemma segSteps_eq_runPoints (a b : TCPoint) :
    segSteps a b =
      runPoints a ⟨(b.x - a.x).sign, (b.y - a.y).sign⟩
        (max (b.x - a.x).natAbs (b.y - a.y).natAbs) := rfl

lemma goodPath_segSteps (a b : TCPoint) (h : a.x = b.x ∨ a.y = b.y) :
    goodPath a (segSteps a b) b := by
  rw [segSteps_eq_runPoints]
  rcases h with h | h
  · have hdx : b.x - a.x = 0 := by omega
    rw [hdx]
    constructor
    · intro m hm
      rw [movesOf_cons_runPoints] at hm
      have hm' := List.eq_of_mem_replicate hm
      subst hm'
      rcases lt_trichotomy (b.y - a.y) 0 with hy | hy | hy
      · right; right; right
        simp [Int.sign_eq_neg_one_iff_neg.mpr hy]
      · exfalso
        rw [hy] at hm
        simp at hm
      · right; left
        simp [Int.sign_eq_one_iff_pos.mpr hy]
    · rw [getLast?_cons_runPoints]
      have h1 : (Int.sign 0 : Int) = 0 := rfl
      have h3 : (b.y - a.y).sign * ((b.y - a.y).natAbs : Int) = b.y - a.y :=
        Int.sign_mul_natAbs _
      simp only [h1, Int.natAbs_zero, Nat.zero_max]
      congr 1
      apply TCPoint.ext_xy
      · show a.x + 0 * ((b.y - a.y).natAbs : Int) = b.x
        omega
      · show a.y + (b.y - a.y).sign * ((b.y - a.y).natAbs : Int) = b.y
        omega
  · have hdy : b.y - a.y = 0 := by omega
    rw [hdy]
    constructor
    · intro m hm
      rw [movesOf_cons_runPoints] at hm
      have hm' := List.eq_of_mem_replicate hm
      subst hm'
      rcases lt_trichotomy (b.x - a.x) 0 with hx | hx | hx
      · right; right; left
        simp [Int.sign_eq_neg_one_iff_neg.mpr hx]
      · exfalso
        rw [hx] at hm
        simp at hm
      · left
        simp [Int.sign_eq_one_iff_pos.mpr hx]
    · rw [getLast?_cons_runPoints]
      have h1 : (Int.sign 0 : Int) = 0 := rfl
      have h3 : (b.x - a.x).sign * ((b.x - a.x).natAbs : Int) = b.x - a.x :=
        Int.sign_mul_natAbs _
      simp only [h1, Int.natAbs_zero, Nat.max_zero]
      congr 1
      apply TCPoint.ext_xy
      · show a.x + (b.x - a.x).sign * ((b.x - a.x).natAbs : Int) = b.x
        omega
      · show a.y + 0 * ((b.x - a.x).natAbs : Int) = b.y
        omega

lemma goodPath_densifyPair (a b : TCPoint) : goodPath a (densifyPair a b) b := by
  unfold densifyPair
  split
  · next h =>
    exact goodPath_append
      (goodPath_segSteps a ⟨b.x, a.y⟩ (Or.inr rfl))
      (goodPath_segSteps ⟨b.x, a.y⟩ b (Or.inl rfl))
  · next h =>
    rcases eq_or_ne (b.x - a.x) 0 with h1 | h1
    · exact goodPath_segSteps a b (Or.inl (by omega))
    · have h2 : b.y - a.y = 0 := by
        by_contra h2
        exact h ⟨h1, h2⟩
      exact goodPath_segSteps a b (Or.inr (by omega))

lemma densify_good : ∀ (ps : List TCPoint) (p0 : TCPoint),
    (∀ m ∈ movesOf (densify (p0 :: ps)), unitCardinal m) ∧
    (densify (p0 :: ps)).getLast? = (p0 :: ps).getLast? := by
  intro ps
  induction ps with
  | nil =>
    intro p0
    constructor
    · intro m hm
      have : movesOf (densify [p0]) = [] := rfl
      rw [this] at hm
      exact absurd hm (List.not_mem_nil m)
    · rfl
  | cons p1 ps' ih =>
    intro p0
    have hd : densify (p0 :: p1 :: ps') =
        p0 :: (densifyPair p0 p1 ++
          ((consecPairs (p1 :: ps')).map (fun pr => densifyPair pr.1 pr.2)).flatten) := rfl
    have hd' : densify (p1 :: ps') =
        p1 :: ((consecPairs (p1 :: ps')).map (fun pr => densifyPair pr.1 pr.2)).flatten := rfl
    obtain ⟨ihm, ihl⟩ := ih p1
    rw [hd'] at ihm ihl
    have hq : ∃ q, (p1 :: ps').getLast? = some q := by
      cases hqq : (p1 :: ps').getLast? with
      | none =>
        exfalso
        have := List.getLast?_isSome (l := p1 :: ps')
        rw [hqq] at this
        simp at this
      | some q => exact ⟨q, rfl⟩
    obtain ⟨q, hq⟩ := hq
    have good2 : goodPath p1
        ((consecPairs (p1 :: ps')).map (fun pr => densifyPair pr.1 pr.2)).flatten q :=
      ⟨ihm, by rw [ihl, hq]⟩
    have good1 : goodPath p0 (densifyPair p0 p1) p1 := goodPath_densifyPair p0 p1
    have good := goodPath_append good1 good2
    obtain ⟨gm, gl⟩ := good
    rw [hd]
    refine ⟨gm, ?_⟩
    rw [gl, List.getLast?_cons_cons, hq]

lemma pathPoints_movesOf : ∀ (l : List TCPoint) (a : TCPoint),
    pathPoints a (movesOf (a :: l)) = l := by
  intro l
  induction l with
  | nil => intro a; rfl
  | cons b l' ih =>
    intro a
    rw [movesOf_cons_cons]
    show ptAdd a (ptSub b a) :: pathPoints (ptAdd a (ptSub b a)) (movesOf (b :: l')) = b :: l'
    rw [ptAdd_ptSub, ih b]

lemma pathPoints_replicate_append (d : TCPoint) :
    ∀ (n : Nat) (p : TCPoint) (l : List TCPoint),
      pathPoints p (List.replicate n d ++ l) =
        runPoints p d n ++ pathPoints ⟨p.x + d.x * (n : Int), p.y + d.y * (n : Int)⟩ l := by
  intro n
  induction n with
  | zero =>
    intro p l
    have h0 : runPoints p d 0 = [] := rfl
    rw [List.replicate_zero, List.nil_append, h0, List.nil_append]
    have hp : (⟨p.x + d.x * ((0 : Nat) : Int), p.y + d.y * ((0 : Nat) : Int)⟩ : TCPoint) = p := by
      apply TCPoint.ext_xy
      · show p.x + d.x * ((0 : Nat) : Int) = p.x
        push_cast; ring
      · show p.y + d.y * ((0 : Nat) : Int) = p.y
        push_cast; ring
    rw [hp]
  | succ k ih =>
    intro p l
    rw [List.replicate_succ, List.cons_append]
    have hstep : pathPoints p (d :: (List.replicate k d ++ l)) =
        ptAdd p d :: pathPoints (ptAdd p d) (List.replicate k d ++ l) := rfl
    rw [hstep, ih (ptAdd p d) l, runPoints_succ, List.cons_append]
    have hpt : (⟨(ptAdd p d).x + d.x * (k : Int), (ptAdd p d).y + d.y * (k : Int)⟩ : TCPoint) =
        ⟨p.x + d.x * ((k + 1 : Nat) : Int), p.y + d.y * ((k + 1 : Nat) : Int)⟩ := by
      apply TCPoint.ext_xy
      · show (ptAdd p d).x + d.x * (k : Int) = p.x + d.x * ((k + 1 : Nat) : Int)
        simp only [ptAdd]
        push_cast; ring
      · show (ptAdd p d).y + d.y * (k : Int) = p.y + d.y * ((k + 1 : Nat) : Int)
        simp only [ptAdd]
        push_cast; ring
    rw [hpt]

lemma countRun_le_cap (d : TCPoint) : ∀ (l : List TCPoint) (cap : Nat),
    countRun d l cap ≤ cap := by
  intro l
  induction l with
  | nil => intro cap; cases cap <;> simp [countRun]
  | cons m rest ih =>
    intro cap
    cases cap with
    | zero => simp [countRun]
    | succ c =>
      simp only [countRun]
      split
      · have := ih c
        omega
      · omega

lemma take_countRun (d : TCPoint) : ∀ (l : List TCPoint) (cap : Nat),
    l.take (countRun d l cap) = List.replicate (countRun d l cap) d := by
  intro l
  induction l with
  | nil => intro cap; cases cap <;> simp [countRun]
  | cons m rest ih =>
    intro cap
    cases cap with
    | zero => simp [countRun]
    | succ c =>
      simp only [countRun]
      split
      · next heq =>
        rw [List.take_succ_cons, ih c, List.replicate_succ, heq]
      · simp

lemma dirIndex_spec {m : TCPoint} (h : unitCardinal m) :
    ∃ i, dirIndex m = some i ∧ i < 8 ∧ DIRECTIONS.getD i ⟨0, 0⟩ = m := by
  rcases h with h | h | h | h <;> subst h
  · exact ⟨0, by decide, by decide, by decide⟩
  · exact ⟨2, by decide, by decide, by decide⟩
  · exact ⟨4, by decide, by decide, by decide⟩
  · exact ⟨6, by decide, by decide, by decide⟩

lemma byte_pack (dir len : Nat) (h : len < 32) :
    (dir <<< 5) ||| len = 32 * dir + len := by
  have h1 : dir <<< 5 = 2 ^ 5 * dir := by
    rw [Nat.shiftLeft_eq]; ring
  have h' : len < 2 ^ 5 := by omega
  rw [h1, ← Nat.mul_add_lt_is_or h' dir]

lemma encodeRuns_replay :
    ∀ (fuel : Nat) (moves : List TCPoint) (p : TCPoint),
      (∀ m ∈ moves, unitCardinal m) → moves.length < fuel →
      ∃ body, encodeRuns fuel moves = some body ∧
        body ≠ [] ∧ body.getLast? = some 0 ∧
        (∀ b ∈ body.dropLast, b / 32 < 8 ∧ 1 ≤ b % 32 ∧ b % 32 ≤ 31 ∧ b ≠ 0) ∧
        replayRuns p body = pathPoints p moves := by
  intro fuel
  induction fuel with
  | zero =>
    intro moves p hm hf
    exact absurd hf (Nat.not_lt_zero _)
  | succ f ih =>
    intro moves p hm hf
    match moves with
    | [] =>
      refine ⟨[0], rfl, by simp, rfl, by simp, rfl⟩
    | d :: rest =>
      have hd : unitCardinal d := hm d (by simp)
      obtain ⟨dir, hdir, hdir8, hgetD⟩ := dirIndex_spec hd
      have hcap : countRun d rest 30 ≤ 30 := countRun_le_cap d rest 30
      have htake : rest.take (countRun d rest 30) =
          List.replicate (countRun d rest 30) d := take_countRun d rest 30
      have hrest : ∀ m ∈ rest.drop (countRun d rest 30), unitCardinal m := by
        intro m hmem
        exact hm m (List.mem_cons_of_mem _ (List.drop_subset _ _ hmem))
      have hlen : (rest.drop (countRun d rest 30)).length < f := by
        rw [List.length_drop]
        have : (d :: rest).length = rest.length + 1 := rfl
        omega
      obtain ⟨tail, htail, htne, htlast, htwf, htreplay⟩ :=
        ih (rest.drop (countRun d rest 30))
          ⟨p.x + d.x * ((1 + countRun d rest 30 : Nat) : Int),
           p.y + d.y * ((1 + countRun d rest 30 : Nat) : Int)⟩ hrest hlen
      have hstep : encodeRuns (f + 1) (d :: rest) =
          some (((dir <<< 5) ||| (1 + countRun d rest 30)) :: tail) := by
        simp only [encodeRuns, hdir, htail]
      set byte := (dir <<< 5) ||| (1 + countRun d rest 30) with hbyte
      have hbval : byte = 32 * dir + (1 + countRun d rest 30) :=
        byte_pack dir (1 + countRun d rest 30) (by omega)
      have hbdiv : byte / 32 = dir := by omega
      have hbmod : byte % 32 = 1 + countRun d rest 30 := by omega
      have hbne : byte ≠ 0 := by omega
      refine ⟨byte :: tail, hstep, by simp, ?_, ?_, ?_⟩
      · cases tail with
        | nil => exact absurd rfl htne
        | cons t ts => rw [List.getLast?_cons_cons]; exact htlast
      · intro b hb
        rw [List.dropLast_cons_of_ne_nil htne] at hb
        rcases List.mem_cons.mp hb with hb | hb
        · subst hb
          refine ⟨by omega, by omega, by omega, hbne⟩
        · exact htwf b hb
      · have hmoves : d :: rest =
            List.replicate (1 + countRun d rest 30) d ++ rest.drop (countRun d rest 30) := by
          conv_lhs => rw [show rest = rest.take (countRun d rest 30) ++
            rest.drop (countRun d rest 30) from (List.take_append_drop _ _).symm]
          rw [htake]
          rw [show (1 + countRun d rest 30) = countRun d rest 30 + 1 by omega]
          rw [List.replicate_succ, List.cons_append]
        rw [hmoves, pathPoints_replicate_append]
        have hrep1 : replayRuns p (byte :: tail) =
            if byte = 0 then [] else
              runPoints p (DIRECTIONS.getD (byte / 32) ⟨0, 0⟩) (byte % 32) ++
                replayRuns ⟨p.x + (DIRECTIONS.getD (byte / 32) ⟨0, 0⟩).x * ((byte % 32 : Nat) : Int),
                    p.y + (DIRECTIONS.getD (byte / 32) ⟨0, 0⟩).y * ((byte % 32 : Nat) : Int)⟩ tail := rfl
        rw [hrep1, if_neg hbne, hbdiv, hbmod, hgetD, htreplay]

/-- C1: for every routed polyline given as a list of at least two integer grid
points, the wire body produced by the run-length encoder consists of nonzero
direction-run bytes whose high 3 bits (`b / 32`) are a direction index below 8
into the E, SE, S, SW, W, NW, N, NE table and whose low 5 bits (`b % 32`) are
a run length between 1 and 31, terminated by a single zero byte, and replaying
those runs from the first point reproduces exactly the densified unit-move
sequence of the polyline (decode of encode is the identity on dense
polylines). -/
theorem c1_wire_rle_roundtrip (p0 : TCPoint) (ps : List TCPoint) (h : ps ≠ []) :
    ∃ body, encodeWire (p0 :: ps) = some body ∧
      body ≠ [] ∧ body.getLast? = some 0 ∧
      (∀ b ∈ body.dropLast, b / 32 < 8 ∧ 1 ≤ b % 32 ∧ b % 32 ≤ 31 ∧ b ≠ 0) ∧
      decodeWire p0 body = densify (p0 :: ps) := by
  obtain ⟨hm, hlast⟩ := densify_good ps p0
  obtain ⟨body, henc, hne, hlast0, hwf, hreplay⟩ :=
    encodeRuns_replay ((movesOf (densify (p0 :: ps))).length + 1)
      (movesOf (densify (p0 :: ps))) p0 hm (by omega)
  refine ⟨body, ?_, hne, hlast0, hwf, ?_⟩
  · have hgt : ¬ ((p0 :: ps).length < 2) := by
      cases ps with
      | nil => exact absurd rfl h
      | cons q qs =>
        simp only [List.length_cons]
        omega
    show encodeWire (p0 :: ps) = some body
    unfold encodeWire
    rw [if_neg hgt]
    exact henc
  · show p0 :: replayRuns p0 body = densify (p0 :: ps)
    rw [hreplay]
    have hdens : densify (p0 :: ps) =
        p0 :: ((consecPairs (p0 :: ps)).map (fun pr => densifyPair pr.1 pr.2)).flatten := rfl
    rw [hdens, pathPoints_movesOf]

theorem c1_wire_rle_roundtrip_witness :
    ([(⟨3, 4⟩ : TCPoint)] ≠ []) ∧
      (∃ body, encodeWire [⟨0, 0⟩, ⟨3, 4⟩] = some body ∧
        body ≠ [] ∧ body.getLast? = some 0 ∧
        (∀ b ∈ body.dropLast, b / 32 < 8 ∧ 1 ≤ b % 32 ∧ b % 32 ≤ 31 ∧ b ≠ 0) ∧
        decodeWire ⟨0, 0⟩ body = densify [⟨0, 0⟩, ⟨3, 4⟩]) :=
  ⟨by decide, c1_wire_rle_roundtrip ⟨0, 0⟩ [⟨3, 4⟩] (by decide)⟩

/-! ## Component library and netlist model (`src/tc/componentLibrary.ts`, `src/netlist/types.ts`) -/

/-- Port direction, the `"in" | "out"` strings of `PortDirection` in
`src/tc/componentLibrary.ts`. -/
inductive PortDir where
  | input
  | output
deriving DecidableEq, Repr

/-- Component kind, the `ComponentKind` enum referenced from
`src/tc/componentLibrary.ts` (the enum declaration file `src/tc/types.ts` is
absent from the sources, so kinds are modelled as an inductive of the names
the library uses; the claims only compare kinds for equality). -/
inductive ComponentKind where
  | Input1 | Output1 | Off | On | Custom
  | Not | And | Or | Xor | Xnor
  | Input8 | Input16 | Input32 | Input64
  | Output8 | Output16 | Output32 | Output64
  | Constant8 | Constant16 | Constant32 | Constant64
  | Maker8 | Maker16 | Maker32 | Maker64
  | Splitter8 | Splitter16 | Splitter32 | Splitter64
  | LessU8 | LessU16 | LessU32 | LessU64
  | LessI8 | LessI16 | LessI32 | LessI64
deriving DecidableEq, Repr

/-- A template port (`ComponentPort` of `src/tc/componentLibrary.ts`). -/
structure ComponentPort where
  id : String
  direction : PortDir
  position : TCPoint
deriving DecidableEq, Repr

/-- Template bounding box (`ComponentTemplateBounds` of
`src/tc/componentLibrary.ts`). -/
structure TemplateBounds where
  minX : Int
  minY : Int
  maxX : Int
  maxY : Int
deriving DecidableEq, Repr

/-- A component template (`ComponentTemplate` of
`src/tc/componentLibrary.ts`); `rotation` is the numeric value of
`ComponentRotation.Rot0` = 0 for every registered template. -/
structure ComponentTemplate where
  id : String
  name : String
  kind : ComponentKind
  rotation : Nat
  ports : List ComponentPort
  bounds : TemplateBounds
deriving DecidableEq, Repr

/-- Module-port metadata (`ModulePortMeta` of `src/netlist/types.ts`). -/
structure ModulePortMeta where
  portName : String
  bitIndex : Nat
deriving DecidableEq, Repr

/-- Instance metadata (`ComponentMetadata` of `src/netlist/types.ts`);
all fields are optional in the source and default to absent. -/
structure ComponentMetadata where
  label : Option String := none
  modulePort : Option ModulePortMeta := none
  setting1 : Option Int := none
  customId : Option Int := none
  portWidths : List (String × Nat) := []
deriving DecidableEq, Repr

/-- First-match lookup in an association list: JS `Map.get` /
object-property read (keys are unique because writes overwrite in place). -/
def getA {β : Type} : List (String × β) → String → Option β
  | [], _ => none
  | (k', v) :: rest, k => if k' = k then some v else getA rest k

/-- JS `Map.set` / object-property write: overwrite the existing binding in
place (preserving insertion order) or append a new one. -/
def setA {β : Type} : List (String × β) → String → β → List (String × β)
  | [], k, v => [(k, v)]
  | (k', v') :: rest, k, v =>
    if k' = k then (k, v) :: rest else (k', v') :: setA rest k v

/-- JS `delete obj[k]` / `Map.delete`: drop the binding for `k`. -/
def delA {β : Type} : List (String × β) → String → List (String × β)
  | [], _ => []
  | (k', v') :: rest, k => if k' = k then rest else (k', v') :: delA rest k

/-- A component instance (`ComponentInstance` of `src/netlist/types.ts`);
`connections` is the JS object mapping port id to net id. -/
structure ComponentInstance where
  id : String
  template : ComponentTemplate
  connections : List (String × String)
  metadata : ComponentMetadata
deriving DecidableEq, Repr

/-- A port reference (`PortRef` of `src/netlist/types.ts`). -/
structure PortRef where
  componentId : String
  portId : String
deriving DecidableEq, Repr

/-- A net (`NetBit` of `src/netlist/types.ts`): at most one source and a
list of sinks. -/
structure NetBit where
  id : String
  source : Option PortRef := none
  sinks : List PortRef := []
deriving DecidableEq, Repr

/-- The net table, a JS `Map` from net id to net. -/
abbrev NetsMap := List (String × NetBit)

/-- The netlist graph (`NetlistGraph` of `src/netlist/types.ts`). -/
structure NetlistGraph where
  components : List ComponentInstance
  nets : NetsMap
deriving DecidableEq, Repr

/-! ## Component serialization (`toTcComponents` of `src/pipeline/verilogToTc.ts`) -/

/-- A placed layout node as consumed by `toTcComponents`
(`LayoutResult["nodes"]` entries); positions are the already-rounded integer
grid coordinates (`Math.round` of the oracle's floats, modelled as `Int`). -/
structure LayoutNode where
  id : String
  position : TCPoint
deriving DecidableEq, Repr

/-- The placed layout as consumed by `toTcComponents`. -/
structure LayoutResult where
  nodes : List LayoutNode
deriving Repr

/-- A serialized component record (the `TCComponent` fields that
`toTcComponents` of `src/pipeline/verilogToTc.ts` constructs). -/
structure TCComponent where
  kind : ComponentKind
  position : TCPoint
  rotation : Nat
  permanentId : Nat
  customString : String
  setting1 : Int
  setting2 : Int
  uiOrder : Int
  customId : Option Int
  customDisplacement : TCPoint
deriving DecidableEq, Repr

/-- The node-position map of `mapNodePositions`
(`src/pipeline/verilogToTc.ts` lines 280-288), built by `Map.set` in node
order. -/
def mapNodePositions (layout : LayoutResult) : List (String × TCPoint) :=
  layout.nodes.foldl (fun m n => setA m n.id n.position) []

/-- The per-component body of `toTcComponents`
(`src/pipeline/verilogToTc.ts` lines 290-328), with the running map index
passed explicitly: look up the layout node and the placement (errors model
the two `throw`s), subtract the template bounds origin, apply the extra
−32/−32 offset exactly when the kind is `Custom`, and assign
`permanentId = index + 1`. -/
def toTcComponentsAux (layout : LayoutResult) (positions : List (String × TCPoint)) :
    List ComponentInstance → Nat → Except String (List TCComponent)
  | [], _ => .ok []
  | component :: rest, index =>
    match layout.nodes.find? (fun n => decide (n.id = component.id)) with
    | none => .error ("Missing layout node for component " ++ component.id)
    | some _ =>
      match getA positions component.id with
      | none => .error ("Missing placement for component " ++ component.id)
      | some placement =>
        let pos0 : TCPoint := ⟨placement.x - component.template.bounds.minX,
                               placement.y - component.template.bounds.minY⟩
        let pos : TCPoint :=
          if component.template.kind = ComponentKind.Custom
          then ⟨pos0.x - 32, pos0.y - 32⟩
          else pos0
        match toTcComponentsAux layout positions rest (index + 1) with
        | .error e => .error e
        | .ok tcs =>
          .ok ({ kind := component.template.kind
                 position := pos
                 rotation := component.template.rotation
                 permanentId := index + 1
                 customString := component.metadata.label.getD ""
                 setting1 := component.metadata.setting1.getD 0
                 setting2 := 0
                 uiOrder := 0
                 customId := component.metadata.customId
                 customDisplacement := ⟨0, 0⟩ } :: tcs)

/-- The component serializer `toTcComponents` of
`src/pipeline/verilogToTc.ts` (lines 290-328): map over
`netlist.components` with its index. -/
def toTcComponents (layout : LayoutResult) (netlist : NetlistGraph) :
    Except String (List TCComponent) :=
  toTcComponentsAux layout (mapNodePositions layout) netlist.components 0

lemma toTcComponentsAux_spec (layout : LayoutResult) (positions : List (String × TCPoint)) :
    ∀ (comps : List ComponentInstance) (index : Nat) (tcs : List TCComponent),
      toTcComponentsAux layout positions comps index = .ok tcs →
      tcs.length = comps.length ∧
      ∀ (i : Nat) (c : ComponentInstance), comps[i]? = some c →
        ∃ (placement : TCPoint) (tc : TCComponent),
          tcs[i]? = some tc ∧
          getA positions c.id = some placement ∧
          tc.kind = c.template.kind ∧
          tc.permanentId = index + i + 1 ∧
          tc.position =
            (if c.template.kind = ComponentKind.Custom
             then ⟨placement.x - c.template.bounds.minX - 32,
                   placement.y - c.template.bounds.minY - 32⟩
             else ⟨placement.x - c.template.bounds.minX,
                   placement.y - c.template.bounds.minY⟩) := by
  intro comps
  induction comps with
  | nil =>
    intro index tcs h
    simp only [toTcComponentsAux] at h
    cases h
    exact ⟨rfl, fun i c hc => by simp at hc⟩
  | cons component rest ih =>
    intro index tcs h
    simp only [toTcComponentsAux] at h
    cases hfind : layout.nodes.find? (fun n => decide (n.id = component.id)) with
    | none => rw [hfind] at h; cases h
    | some node =>
      rw [hfind] at h
      cases hget : getA positions component.id with
      | none => rw [hget] at h; cases h
      | some placement =>
        rw [hget] at h
        cases hrec : toTcComponentsAux layout positions rest (index + 1) with
        | error e => rw [hrec] at h; cases h
        | ok tcs' =>
          rw [hrec] at h
          obtain ⟨hlen', hspec'⟩ := ih (index + 1) tcs' hrec
          cases h
          constructor
          · simp [hlen']
          · intro i c hc
            cases i with
            | zero =>
              simp only [List.getElem?_cons_zero, Option.some.injEq] at hc
              subst hc
              refine ⟨placement, _, List.getElem?_cons_zero, hget, rfl, ?_, rfl⟩
              show index + 1 = index + 0 + 1
              omega
            | succ j =>
              simp only [List.getElem?_cons_succ] at hc
              obtain ⟨placement', tc', htc', hget', hkind', hid', hpos'⟩ := hspec' j c hc
              refine ⟨placement', tc', ?_, hget', hkind', by omega, hpos'⟩
              simpa using htc'

/-- C2: every component record written to the payload stores the layout's
placed position minus the template's bounding-box `minX`/`minY`, with an
additional −32 on both coordinates exactly when the component's kind is
`Custom` (no other kind receives the extra offset). -/
theorem c2_component_position_offset (layout : LayoutResult) (netlist : NetlistGraph)
    (tcs : List TCComponent) (h : toTcComponents layout netlist = .ok tcs)
    (i : Nat) (c : ComponentInstance) (hc : netlist.components[i]? = some c) :
    ∃ (placement : TCPoint) (tc : TCComponent),
      tcs[i]? = some tc ∧
      getA (mapNodePositions layout) c.id = some placement ∧
      tc.position =
        (if c.template.kind = ComponentKind.Custom
         then ⟨placement.x - c.template.bounds.minX - 32,
               placement.y - c.template.bounds.minY - 32⟩
         else ⟨placement.x - c.template.bounds.minX,
               placement.y - c.template.bounds.minY⟩) := by
  obtain ⟨-, hspec⟩ :=
    toTcComponentsAux_spec layout (mapNodePositions layout) netlist.components 0 tcs h
  obtain ⟨placement, tc, h1, h2, h3, h4, h5⟩ := hspec i c hc
  exact ⟨placement, tc, h1, h2, h5⟩

/-- C3: in every payload produced from a netlist, the permanent id of the
i-th component record (netlist component order) is the 1-based index `i + 1`,
hence all permanent ids within one payload are distinct. -/
theorem c3_permanent_ids_one_based (layout : LayoutResult) (netlist : NetlistGraph)
    (tcs : List TCComponent) (h : toTcComponents layout netlist = .ok tcs) :
    tcs.length = netlist.components.length ∧
    (∀ (i : Nat) (tc : TCComponent), tcs[i]? = some tc → tc.permanentId = i + 1) ∧
    (tcs.map (fun tc => tc.permanentId)).Nodup := by
  obtain ⟨hlen, hspec⟩ :=
    toTcComponentsAux_spec layout (mapNodePositions layout) netlist.components 0 tcs h
  have hid : ∀ (i : Nat) (tc : TCComponent), tcs[i]? = some tc → tc.permanentId = i + 1 := by
    intro i tc htc
    have hi : i < tcs.length := by
      by_contra hge
      rw [List.getElem?_eq_none (by omega)] at htc
      cases htc
    have hi' : i < netlist.components.length := by omega
    obtain ⟨placement, tc', h1, h2, h3, h4, h5⟩ :=
      hspec i netlist.components[i] (List.getElem?_eq_getElem hi')
    rw [htc] at h1
    cases h1
    omega
  refine ⟨hlen, hid, ?_⟩
  have hmap : tcs.map (fun tc => tc.permanentId) = (List.range tcs.length).map (· + 1) := by
    apply List.ext_getElem?
    intro i
    by_cases hi : i < tcs.length
    · rw [List.getElem?_map, List.getElem?_map, List.getElem?_range hi,
        List.getElem?_eq_getElem hi]
      show some (tcs[i].permanentId) = some (i + 1)
      rw [hid i tcs[i] (List.getElem?_eq_getElem hi)]
    · rw [List.getElem?_map, List.getElem?_map,
        List.getElem?_eq_none (l := tcs) (by omega),
        List.getElem?_eq_none (l := List.range tcs.length) (by rw [List.length_range]; omega)]
      rfl
  rw [hmap]
  exact (List.nodup_range tcs.length).map (fun a b h => by omega)

/-! ## Component library (`src/tc/componentLibrary.ts`) -/

deriving instance DecidableEq for Except

/-- Bounding box over a port list, `createBounds` of
`src/tc/componentLibrary.ts`: min/max of the port positions, widened by the
optional explicit extra bounds (every registration passes either no extras or
a full extra record, and every registered template has at least one port, so
the infinite seeds of the source are modelled by seeding the fold with the
first port). -/
def createBounds (ports : List ComponentPort) (extra : Option TemplateBounds) : TemplateBounds :=
  let seed : TemplateBounds :=
    match ports with
    | [] => ⟨0, 0, 0, 0⟩
    | p :: _ => ⟨p.position.x, p.position.y, p.position.x, p.position.y⟩
  let fromPorts := ports.foldl
    (fun acc p =>
      ⟨min acc.minX p.position.x, min acc.minY p.position.y,
       max acc.maxX p.position.x, max acc.maxY p.position.y⟩) seed
  match extra with
  | none => fromPorts
  | some e =>
    ⟨min fromPorts.minX e.minX, min fromPorts.minY e.minY,
     max fromPorts.maxX e.maxX, max fromPorts.maxY e.maxY⟩

/-- Template constructor, `template` of `src/tc/componentLibrary.ts`
(default rotation `Rot0` = 0). -/
def mkTemplate (id name : String) (kind : ComponentKind) (ports : List ComponentPort)
    (extra : Option TemplateBounds := none) : ComponentTemplate :=
  { id := id, name := name, kind := kind, rotation := 0, ports := ports,
    bounds := createBounds ports extra }

/-- Port layout helper `makePorts` of `src/tc/componentLibrary.ts` (the
`size` argument of the source is unused in its body and omitted): inputs on
the west side centered around `y = 0` (all at `y = 0` when there is a single
input), optional output at `(outputX, outputY)`. -/
def makePorts (inputs : List String) (output : Option String)
    (outputX : Int := 2) (outputY : Int := 0) : List ComponentPort :=
  let y : Nat := (inputs.length - 1) / 2
  (inputs.mapIdx (fun i id =>
    ⟨id, .input, ⟨-1, if inputs.length > 1 then (y : Int) - (i : Int) else 0⟩⟩)) ++
    (match output with
     | some o => [⟨o, .output, ⟨outputX, outputY⟩⟩]
     | none => [])

def INPUT_1 : ComponentTemplate :=
  mkTemplate "INPUT_1" "Input1" .Input1
    [⟨"out", .output, ⟨1, 0⟩⟩] (some ⟨0, 0, 2, 0⟩)

def OUTPUT_1 : ComponentTemplate :=
  mkTemplate "OUTPUT_1" "Output1" .Output1
    [⟨"in", .input, ⟨-1, 0⟩⟩] (some ⟨-2, 0, 0, 0⟩)

def CONST_0 : ComponentTemplate :=
  mkTemplate "CONST_0" "Off" .Off
    [⟨"out", .output, ⟨1, 0⟩⟩] (some ⟨0, 0, 2, 0⟩)

def CUSTOM_GENERIC : ComponentTemplate :=
  mkTemplate "CUSTOM_GENERIC" "Custom" .Custom
    [⟨"in", .input, ⟨-1, 0⟩⟩, ⟨"out", .output, ⟨1, 0⟩⟩] (some ⟨-2, -1, 2, 1⟩)

def CONST_1 : ComponentTemplate :=
  mkTemplate "CONST_1" "On" .On
    [⟨"out", .output, ⟨1, 0⟩⟩] (some ⟨0, 0, 2, 0⟩)

def NOT_1 : ComponentTemplate :=
  mkTemplate "NOT_1" "Not" .Not
    [⟨"A", .input, ⟨-1, 0⟩⟩, ⟨"Y", .output, ⟨1, 0⟩⟩]

def AND_1 : ComponentTemplate :=
  mkTemplate "AND_1" "And" .And
    [⟨"A", .input, ⟨-1, 1⟩⟩, ⟨"B", .input, ⟨-1, -1⟩⟩, ⟨"Y", .output, ⟨2, 0⟩⟩]

def OR_1 : ComponentTemplate :=
  mkTemplate "OR_1" "Or" .Or
    [⟨"A", .input, ⟨-1, 1⟩⟩, ⟨"B", .input, ⟨-1, -1⟩⟩, ⟨"Y", .output, ⟨2, 0⟩⟩]

def XOR_1 : ComponentTemplate :=
  mkTemplate "XOR_1" "Xor" .Xor
    [⟨"A", .input, ⟨-1, 1⟩⟩, ⟨"B", .input, ⟨-1, -1⟩⟩, ⟨"Y", .output, ⟨2, 0⟩⟩]

def XNOR_1 : ComponentTemplate :=
  mkTemplate "XNOR_1" "Xnor" .Xnor
    [⟨"A", .input, ⟨-1, 1⟩⟩, ⟨"B", .input, ⟨-1, -1⟩⟩, ⟨"Y", .output, ⟨2, 0⟩⟩]

/-- Size-indexed kinds for the per-width templates the adapter paths use. -/
def inputKind (size : Nat) : ComponentKind :=
  match size with
  | 16 => .Input16 | 32 => .Input32 | 64 => .Input64 | _ => .Input8

def outputKind (size : Nat) : ComponentKind :=
  match size with
  | 16 => .Output16 | 32 => .Output32 | 64 => .Output64 | _ => .Output8

def constKind (size : Nat) : ComponentKind :=
  match size with
  | 16 => .Constant16 | 32 => .Constant32 | 64 => .Constant64 | _ => .Constant8

def makerKind (size : Nat) : ComponentKind :=
  match size with
  | 16 => .Maker16 | 32 => .Maker32 | 64 => .Maker64 | _ => .Maker8

def splitterKind (size : Nat) : ComponentKind :=
  match size with
  | 16 => .Splitter16 | 32 => .Splitter32 | 64 => .Splitter64 | _ => .Splitter8

def lessuKind (size : Nat) : ComponentKind :=
  match size with
  | 16 => .LessU16 | 32 => .LessU32 | 64 => .LessU64 | _ => .LessU8

def lessiKind (size : Nat) : ComponentKind :=
  match size with
  | 16 => .LessI16 | 32 => .LessI32 | 64 => .LessI64 | _ => .LessI8

/-- Per-width IO templates (`INPUT_N` / `OUTPUT_N` registrations of
`src/tc/componentLibrary.ts`). -/
def inputTemplate (size : Nat) : ComponentTemplate :=
  mkTemplate ("INPUT_" ++ toString size) ("Input" ++ toString size) (inputKind size)
    [⟨"out", .output, ⟨if size = 8 then 1 else 2, 0⟩⟩]

def outputTemplate (size : Nat) : ComponentTemplate :=
  mkTemplate ("OUTPUT_" ++ toString size) ("Output" ++ toString size) (outputKind size)
    [⟨"in", .input, ⟨if size = 8 then -1 else -2, 0⟩⟩]

/-- Per-width constant templates (`CONST_N` registrations). -/
def constTemplate (size : Nat) : ComponentTemplate :=
  let x : Int := if size = 8 then 1 else 2
  mkTemplate ("CONST_" ++ toString size) ("Const" ++ toString size) (constKind size)
    [⟨"out", .output, ⟨x, 0⟩⟩] (some ⟨0, 0, x, 0⟩)

/-- Maker port layout of `src/tc/componentLibrary.ts`: per-bit pins for
size 8, one pin per 8-bit chunk for 16/32/64 (with the −1 adjustment for
size 16), plus the `out` bus pin. -/
def makerPorts (size : Nat) : List ComponentPort :=
  (if size = 8 then
    (List.range size).map (fun i =>
      ⟨"in" ++ toString i, .input, ⟨-1, (i : Int) - (((size - 1) / 2 : Nat) : Int)⟩⟩)
  else
    let chunks := size / 8
    let adj : Int := if size = 16 then -1 else 0
    (List.range chunks).map (fun i =>
      ⟨"in" ++ toString i, .input, ⟨-1, (i : Int) - (((chunks - 1) / 2 : Nat) : Int) + adj⟩⟩))
  ++ [⟨"out", .output, ⟨1, 0⟩⟩]

/-- Splitter port layout of `src/tc/componentLibrary.ts`. -/
def splitterPorts (size : Nat) : List ComponentPort :=
  ⟨"in", .input, ⟨-1, 0⟩⟩ ::
  (if size = 8 then
    (List.range size).map (fun i =>
      ⟨"out" ++ toString i, .output, ⟨1, (i : Int) - (((size - 1) / 2 : Nat) : Int)⟩⟩)
  else
    let chunks := size / 8
    let adj : Int := if size = 16 then -1 else 0
    (List.range chunks).map (fun i =>
      ⟨"out" ++ toString i, .output, ⟨1, (i : Int) - (((chunks - 1) / 2 : Nat) : Int) + adj⟩⟩))

def makerTemplate (size : Nat) : ComponentTemplate :=
  mkTemplate ("MAKER_" ++ toString size) ("Maker" ++ toString size) (makerKind size)
    (makerPorts size)

def splitterTemplate (size : Nat) : ComponentTemplate :=
  mkTemplate ("SPLITTER_" ++ toString size) ("Splitter" ++ toString size) (splitterKind size)
    (splitterPorts size)

/-- Per-width comparison templates (`LESSU_N` / `LESSI_N` registrations). -/
def lessuTemplate (size : Nat) : ComponentTemplate :=
  mkTemplate ("LESSU_" ++ toString size) ("LessU" ++ toString size) (lessuKind size)
    (makePorts ["A", "B"] (some "out") 1)

def lessiTemplate (size : Nat) : ComponentTemplate :=
  mkTemplate ("LESSI_" ++ toString size) ("LessI" ++ toString size) (lessiKind size)
    (makePorts ["A", "B"] (some "out") 1)

/-- The sizes of the multi-bit template families (`SIZES` of
`src/tc/componentLibrary.ts`). -/
def SIZES : List Nat := [8, 16, 32, 64]

/-- The registered template table (the subset of the library that the
embedded adapter paths reach: 1-bit gates/IO/constants, the Custom generic,
and the per-width IO, constant, maker, splitter and less-than families). -/
def TEMPLATES : List (String × ComponentTemplate) :=
  [("INPUT_1", INPUT_1), ("OUTPUT_1", OUTPUT_1), ("CONST_0", CONST_0),
   ("CUSTOM_GENERIC", CUSTOM_GENERIC), ("CONST_1", CONST_1), ("NOT_1", NOT_1),
   ("AND_1", AND_1), ("OR_1", OR_1), ("XOR_1", XOR_1), ("XNOR_1", XNOR_1)] ++
  ((SIZES.map (fun size =>
    [("INPUT_" ++ toString size, inputTemplate size),
     ("OUTPUT_" ++ toString size, outputTemplate size),
     ("CONST_" ++ toString size, constTemplate size),
     ("MAKER_" ++ toString size, makerTemplate size),
     ("SPLITTER_" ++ toString size, splitterTemplate size),
     ("LESSU_" ++ toString size, lessuTemplate size),
     ("LESSI_" ++ toString size, lessiTemplate size)])).flatten)

/-- Template lookup `getTemplate` of `src/tc/componentLibrary.ts`; the
`throw` on a missing id is the `.error` case. -/
def getTemplate (id : String) : Except String ComponentTemplate :=
  match getA TEMPLATES id with
  | none => .error ("Unknown component template " ++ id)
  | some t => .ok t

example : getTemplate "SPLITTER_8" = .ok (splitterTemplate 8) := by decide
example : (splitterTemplate 8).ports.length = 9 := by decide
example : (makerTemplate 16).ports =
    [⟨"in0", .input, ⟨-1, -1⟩⟩, ⟨"in1", .input, ⟨-1, 0⟩⟩, ⟨"out", .output, ⟨1, 0⟩⟩] := by decide

/-- Concrete two-component example (an `INPUT_1` and a Custom instance) used
to witness the serialization theorems. -/
def c23Netlist : NetlistGraph :=
  { components :=
      [{ id := "in:a", template := INPUT_1, connections := [], metadata := {} },
       { id := "c2", template := CUSTOM_GENERIC, connections := [], metadata := {} }],
    nets := [] }

/-- Concrete layout for `c23Netlist`. -/
def c23Layout : LayoutResult :=
  { nodes := [⟨"in:a", ⟨5, 7⟩⟩, ⟨"c2", ⟨1, 2⟩⟩] }

/-- Expected serialization of `c23Netlist` under `c23Layout`. -/
def c23Tcs : List TCComponent :=
  [⟨.Input1, ⟨5, 7⟩, 0, 1, "", 0, 0, 0, none, ⟨0, 0⟩⟩,
   ⟨.Custom, ⟨-29, -29⟩, 0, 2, "", 0, 0, 0, none, ⟨0, 0⟩⟩]

example : toTcComponents c23Layout c23Netlist = .ok c23Tcs := by decide

theorem c2_component_position_offset_witness :
    toTcComponents c23Layout c23Netlist = .ok c23Tcs ∧
    c23Netlist.components[1]? = some ⟨"c2", CUSTOM_GENERIC, [], {}⟩ ∧
    (∃ (placement : TCPoint) (tc : TCComponent),
      c23Tcs[1]? = some tc ∧
      getA (mapNodePositions c23Layout) ("c2") = some placement ∧
      tc.position =
        (if CUSTOM_GENERIC.kind = ComponentKind.Custom
         then ⟨placement.x - CUSTOM_GENERIC.bounds.minX - 32,
               placement.y - CUSTOM_GENERIC.bounds.minY - 32⟩
         else ⟨placement.x - CUSTOM_GENERIC.bounds.minX,
               placement.y - CUSTOM_GENERIC.bounds.minY⟩)) :=
  ⟨by decide, by decide,
    c2_component_position_offset c23Layout c23Netlist c23Tcs (by decide) 1
      ⟨"c2", CUSTOM_GENERIC, [], {}⟩ (by decide)⟩

theorem c3_permanent_ids_one_based_witness :
    toTcComponents c23Layout c23Netlist = .ok c23Tcs ∧
    (c23Tcs.length = c23Netlist.components.length ∧
      (∀ (i : Nat) (tc : TCComponent), c23Tcs[i]? = some tc → tc.permanentId = i + 1) ∧
      (c23Tcs.map (fun tc => tc.permanentId)).Nodup) :=
  ⟨by decide, c3_permanent_ids_one_based c23Layout c23Netlist c23Tcs (by decide)⟩

/-! ## Netlist model operations (`src/netlist/adapter.ts`) -/

/-- Net lookup with lazy creation: the `nets.get(bitId) ?? { id: bitId,
sinks: [] }` idiom of `registerSource` / `registerSink`
(`src/netlist/adapter.ts` lines 218-241). -/
def getOrCreateNet (nets : NetsMap) (bitId : String) : NetBit :=
  (getA nets bitId).getD { id := bitId }

/-- The `registerSource` operation of `src/netlist/adapter.ts` (lines
218-231): assign `ref` as the unique driver of net `bitId`; throw (`.error`)
when the net already has a driver, in which case no write happens. -/
def registerSource (nets : NetsMap) (bitId : String) (ref : PortRef) :
    Except String NetsMap :=
  let net := getOrCreateNet nets bitId
  if net.source.isSome then
    .error ("Net " ++ bitId ++ " already has a driver")
  else
    .ok (setA nets bitId { net with source := some ref })

/-- The `registerSink` operation of `src/netlist/adapter.ts` (lines
233-241): append `ref` to the net's sink list (creating the net lazily). -/
def registerSink (nets : NetsMap) (bitId : String) (ref : PortRef) : NetsMap :=
  let net := getOrCreateNet nets bitId
  setA nets bitId { net with sinks := net.sinks ++ [ref] }

lemma getA_setA_same {β : Type} (m : List (String × β)) (k : String) (v : β) :
    getA (setA m k v) k = some v := by
  induction m with
  | nil => simp [setA, getA]
  | cons kv rest ih =>
    obtain ⟨k', v'⟩ := kv
    by_cases hk : k' = k
    · simp [setA, hk, getA]
    · simp [setA, hk, getA, ih]

lemma getA_setA_other {β : Type} (m : List (String × β)) (k k' : String) (v : β)
    (h : k' ≠ k) : getA (setA m k v) k' = getA m k' := by
  induction m with
  | nil => simp [setA, getA, Ne.symm h]
  | cons kv rest ih =>
    obtain ⟨k0, v0⟩ := kv
    by_cases hk : k0 = k
    · subst hk
      simp [setA, getA, Ne.symm h]
    · simp only [setA, hk, if_false, getA]
      by_cases hk' : k0 = k'
      · simp [hk']
      · simp [hk', ih]

/-- C7: registering a driver on a net that already has one fails and performs
no write (the map is returned unchanged only through the error path, so every
net keeps its state); registering on an undriven net makes the port the net's
unique source and leaves every other net unchanged. -/
theorem c7_register_source_unique (nets : NetsMap) (bitId : String) (ref : PortRef) :
    ((∃ net, getA nets bitId = some net ∧ net.source.isSome) →
      registerSource nets bitId ref = .error ("Net " ++ bitId ++ " already has a driver")) ∧
    ((getOrCreateNet nets bitId).source = none →
      ∃ nets', registerSource nets bitId ref = .ok nets' ∧
        (∃ net', getA nets' bitId = some net' ∧
          net'.source = some ref ∧
          net'.sinks = (getOrCreateNet nets bitId).sinks) ∧
        (∀ other, other ≠ bitId → getA nets' other = getA nets other)) := by
  constructor
  · rintro ⟨net, hget, hsrc⟩
    have hoc : getOrCreateNet nets bitId = net := by
      unfold getOrCreateNet
      rw [hget]
      rfl
    simp only [registerSource, hoc, hsrc, if_true]
  · intro hnone
    refine ⟨setA nets bitId { getOrCreateNet nets bitId with source := some ref }, ?_, ?_, ?_⟩
    · simp only [registerSource, hnone, Option.isSome_none, Bool.false_eq_true,
        if_false]
    · exact ⟨_, getA_setA_same nets bitId _, rfl, rfl⟩
    · intro other hother
      exact getA_setA_other nets bitId other _ hother

/-- A one-net map whose net `"7"` is already driven, for the C7 witness. -/
def c7Nets : NetsMap :=
  [("7", { id := "7", source := some ⟨"cA", "out"⟩, sinks := [] })]

theorem c7_register_source_unique_witness :
    (∃ net, getA c7Nets "7" = some net ∧ net.source.isSome) ∧
    (registerSource c7Nets "7" ⟨"cB", "out"⟩ =
      .error ("Net " ++ "7" ++ " already has a driver")) :=
  ⟨⟨{ id := "7", source := some ⟨"cA", "out"⟩, sinks := [] }, by decide, by decide⟩,
    (c7_register_source_unique c7Nets "7" ⟨"cB", "out"⟩).1
      ⟨{ id := "7", source := some ⟨"cA", "out"⟩, sinks := [] }, by decide, by decide⟩⟩

/-! ## Hierarchy driver (CLI, `src/unnamed/part_018`; `parseModules` of `src/unnamed/part_019`) -/

/-- A parsed module record as produced by `parseModules`
(`src/unnamed/part_019`): the declared name, the full module text, and the
numeric `CUSTOM_ID` parameter when the regex finds one. -/
structure ParsedModule where
  name : String
  body : String
  customId : Option Nat := none
deriving DecidableEq, Repr

/-- UTF-16 code units of a string as used by `str.charCodeAt(i)` (module
names are ASCII, where code units and code points coincide). -/
def charCodes (s : String) : List Nat :=
  s.data.map (fun c => c.toNat)

/-- One loop iteration of `hashStringId` (CLI driver lines 58-66):
`hash ^= c; hash *= 0x100000001b3; hash &= 0xffffffffffffffff`. -/
def fnvStep (hash c : Nat) : Nat :=
  ((hash ^^^ c) * 0x100000001b3) &&& 0xffffffffffffffff

/-- The 64-bit FNV-1a loop of `hashStringId` with offset basis
`0xcbf29ce484222325`. -/
def fnv64 (codeUnits : List Nat) : Nat :=
  codeUnits.foldl fnvStep 0xcbf29ce484222325

/-- The driver's `hashStringId` (CLI driver lines 58-66): 64-bit FNV-1a of
the name with the top bit masked to zero (`& 0x7fffffffffffffff`). -/
def hashStringId (s : String) : Nat :=
  fnv64 (charCodes s) &&& 0x7fffffffffffffff

/-- Modelled from the spec: the FNV-1a hash as the spec words it, "offset
basis 0xcbf29ce484222325, prime 0x100000001b3, reduced modulo 2^64 per
character"; to be compared with the source's bit-mask formulation. -/
def fnv64Spec (codeUnits : List Nat) : Nat :=
  codeUnits.foldl (fun h c => ((h ^^^ c) * 0x100000001b3) % 2 ^ 64) 0xcbf29ce484222325

/-- The per-dependency id assignment of the CLI driver (lines 68-76): a
module that declares a numeric `CUSTOM_ID` keeps it, any other submodule
gets the hash of its name. -/
def assignCustomId (m : ParsedModule) : Nat :=
  match m.customId with
  | some id => id
  | none => hashStringId m.name

lemma fnv64_eq_spec (codeUnits : List Nat) : fnv64 codeUnits = fnv64Spec codeUnits := by
  have hstep : ∀ (h c : Nat), fnvStep h c = ((h ^^^ c) * 0x100000001b3) % 2 ^ 64 := by
    intro h c
    unfold fnvStep
    have := Nat.and_pow_two_sub_one_eq_mod ((h ^^^ c) * 0x100000001b3) 64
    norm_num at this ⊢
    exact this
  have hfold : ∀ (l : List Nat) (h0 : Nat),
      l.foldl fnvStep h0 =
        l.foldl (fun h c => ((h ^^^ c) * 0x100000001b3) % 2 ^ 64) h0 := by
    intro l
    induction l with
    | nil => intro h0; rfl
    | cons c rest ih =>
      intro h0
      rw [List.foldl_cons, List.foldl_cons, hstep]
      exact ih _
  exact hfold codeUnits _

/-- C8: the identifier assigned to a submodule is its declared numeric
`CUSTOM_ID` when one was parsed, and otherwise the 64-bit FNV-1a hash of the
module name (offset basis 0xcbf29ce484222325, prime 0x100000001b3, reduced
modulo 2^64 per character) with the top bit masked to zero, so every
auto-assigned identifier is below 2^63. -/
theorem c8_custom_id_assignment (m : ParsedModule) :
    (∀ id, m.customId = some id → assignCustomId m = id) ∧
    (m.customId = none →
      assignCustomId m = fnv64Spec (charCodes m.name) % 2 ^ 63 ∧
      assignCustomId m < 2 ^ 63) := by
  constructor
  · intro id hid
    unfold assignCustomId
    rw [hid]
  · intro hnone
    have ha : assignCustomId m = hashStringId m.name := by
      unfold assignCustomId
      rw [hnone]
    have hmask : hashStringId m.name = fnv64 (charCodes m.name) % 2 ^ 63 := by
      unfold hashStringId
      have := Nat.and_pow_two_sub_one_eq_mod (fnv64 (charCodes m.name)) 63
      norm_num at this ⊢
      exact this
    refine ⟨?_, ?_⟩
    · rw [ha, hmask, fnv64_eq_spec]
    · rw [ha, hmask]
      exact Nat.mod_lt _ (by norm_num)

theorem c8_custom_id_assignment_witness :
    ((⟨"adder", "module adder(); endmodule", none⟩ : ParsedModule).customId = none) ∧
    (assignCustomId ⟨"adder", "module adder(); endmodule", none⟩ =
      fnv64Spec (charCodes "adder") % 2 ^ 63 ∧
     assignCustomId ⟨"adder", "module adder(); endmodule", none⟩ < 2 ^ 63) :=
  ⟨rfl, (c8_custom_id_assignment ⟨"adder", "module adder(); endmodule", none⟩).2 rfl⟩

/-- The dependency list the CLI driver builds (lines 68-76): every parsed
module except the top, in parse order, with `CUSTOM_ID` filled in by
`hashStringId` when absent. -/
def driverDeps (modules : List ParsedModule) (topModuleName : String) : List ParsedModule :=
  (modules.filter (fun m => m.name ≠ topModuleName)).map
    (fun m =>
      match m.customId with
      | none => { m with customId := some (hashStringId m.name) }
      | some _ => m)

/-- The order in which the CLI driver compiles submodules: the
`for (const dep of deps)` loop of lines 91-108 walks `driverDeps` front to
back, so the compile order is the dependency list's module-name order. -/
def driverCompileOrder (modules : List ParsedModule) (topModuleName : String) : List String :=
  (driverDeps modules topModuleName).map (fun m => m.name)

/-- Character-sequence prefix test (pattern against text), support for the
textual-containment check. -/
def hasPrefixSeq : List Char → List Char → Bool
  | _, [] => true
  | [], _ :: _ => false
  | t :: ts, p :: ps => t = p && hasPrefixSeq ts ps

/-- Character-sequence containment (pattern occurs somewhere in text). -/
def containsSeq (text pat : List Char) : Bool :=
  hasPrefixSeq text pat ||
    (match text with
     | [] => false
     | _ :: rest => containsSeq rest pat)

/-- Modelled from the spec: "Build a dependency DAG by textual containment of
module names within each module body" — module `x` depends on module `y`
when `y`'s name occurs in `x`'s body text. -/
def bodyContains (x y : ParsedModule) : Bool :=
  containsSeq x.body.data y.name.data

/-- Modelled from the spec: a compile order is depth-first topological when
every child is compiled before any module whose body contains its name,
i.e. no earlier module's body contains a later module's name. -/
def topoOrderedSpec : List ParsedModule → Bool
  | [] => true
  | x :: rest => rest.all (fun y => bodyContains x y = false) && topoOrderedSpec rest

/-- Three modules where submodule `B` textually instantiates submodule `C`
but precedes it in the source: the driver compiles `B` first. -/
def c9Modules : List ParsedModule :=
  [⟨"top", "module top(); B b(); endmodule", none⟩,
   ⟨"B", "module B(); C c(); endmodule", none⟩,
   ⟨"C", "module C(); endmodule", none⟩]

/-- Two submodules whose bodies each contain the other's name: a dependency
cycle under textual containment. -/
def c9CyclicModules : List ParsedModule :=
  [⟨"top", "module top(); B b(); endmodule", none⟩,
   ⟨"B", "module B(); C c(); endmodule", none⟩,
   ⟨"C", "module C(); B b(); endmodule", none⟩]

/-- C9 counterexample: the driver compiles submodules in parse order, not in
depth-first topological order — on `c9Modules` it compiles `B` before the
child `C` that `B`'s body contains, so the produced order is not topological;
and on the cyclic input it still returns an order instead of rejecting (the
driver has no error path at all). -/
theorem c9_driver_topological_counterexample :
    driverCompileOrder c9Modules "top" = ["B", "C"] ∧
    topoOrderedSpec (driverDeps c9Modules "top") = false ∧
    driverCompileOrder c9CyclicModules "top" = ["B", "C"] := by
  refine ⟨by decide, by decide, by decide⟩

/-- C9 (amended): the hierarchy driver compiles each submodule (every parsed
module whose name differs from the top's) exactly once, in source parse
order, performing no dependency analysis: its compile order is the parse
order with the top module dropped, and it never rejects an input (there is
no cycle check). -/
theorem c9_driver_compiles_in_parse_order (modules : List ParsedModule)
    (topModuleName : String) :
    driverCompileOrder modules topModuleName =
      (modules.map (fun m => m.name)).filter (fun n => n ≠ topModuleName) := by
  unfold driverCompileOrder driverDeps
  have hname : ∀ mm : ParsedModule,
      ((fun (m : ParsedModule) =>
        match m.customId with
        | none => { m with customId := some (hashStringId m.name) }
        | some _ => m) mm).name = mm.name := by
    intro mm
    cases hc : mm.customId
    · simp only []
      rw [hc]
    · simp only []
      rw [hc]
  induction modules with
  | nil => rfl
  | cons m rest ih =>
    by_cases h : m.name = topModuleName
    · simp [List.filter_cons, h]
      simpa using ih
    · simp [List.filter_cons, h, hname m]
      simpa using ih

/-! ## Custom-component cell lowering (C5) -/

/-- Custom-component metadata (`CustomComponentMeta` of
`src/netlist/types.ts`): the child's 8-unit bounding box and exported
ports. -/
structure CustomComponentMeta where
  bounds : TemplateBounds
  ports : List ComponentPort
deriving DecidableEq, Repr

/-- Modelled from the spec: the custom-cell branch of the lowering pass. The
`src/netlist/adapter.ts` in the tree ends cell dispatch with `throw new
Error("Unsupported cell type")` (lines 2692-2695) and its
`YosysAdapterOptions` has no custom fields, yet the caller
`convertVerilogToSave` (`src/pipeline/verilogToTc.ts` lines 701-705) passes
`customComponentMapping` and `customComponentDefinitions` options, the
metadata fields `customId` / `portWidths` exist in `src/netlist/types.ts`,
and the `CUSTOM_GENERIC` template exists in `src/tc/componentLibrary.ts`
(lines 103-114): the adapter revision holding this branch is missing from
the sources. Following spec section 4.3 (Custom cells: "Instantiate the
generic Custom template; stash the submodule's 63-bit id in metadata; carry
per-port width overrides from the child's custom-component metadata"), a
cell whose type names a known submodule lowers to a `CUSTOM_GENERIC`
instance carrying the submodule id and the width overrides extracted from
the child metadata; the exact width-extraction rule is not pinned down by
the spec, so it is passed in as `portWidthsOfMeta`. A type in neither the
cell library nor the mapping aborts. -/
def lowerCustomCell (portWidthsOfMeta : CustomComponentMeta → List (String × Nat))
    (customComponentMapping : List (String × Nat))
    (customComponentDefinitions : List (String × CustomComponentMeta))
    (cellName cellType : String) : Except String ComponentInstance :=
  match getA customComponentMapping cellType with
  | none => .error ("Unsupported cell type " ++ cellType)
  | some cid =>
    .ok { id := cellName
          template := CUSTOM_GENERIC
          connections := []
          metadata :=
            { customId := some (Int.ofNat cid)
              portWidths :=
                match getA customComponentDefinitions cellType with
                | some meta => portWidthsOfMeta meta
                | none => [] } }

/-- C5: a cell whose type is a hierarchical (custom) instance name known to
the driver's mapping does not abort the lowering pass: it yields an instance
of the generic `CUSTOM_GENERIC` template whose metadata stores the
submodule's identifier and the per-port width overrides taken from the
child's custom-component metadata. -/
theorem c5_custom_cell_lowered
    (portWidthsOfMeta : CustomComponentMeta → List (String × Nat))
    (customComponentMapping : List (String × Nat))
    (customComponentDefinitions : List (String × CustomComponentMeta))
    (cellName cellType : String) (cid : Nat) (meta : CustomComponentMeta)
    (hmap : getA customComponentMapping cellType = some cid)
    (hdef : getA customComponentDefinitions cellType = some meta) :
    lowerCustomCell portWidthsOfMeta customComponentMapping
        customComponentDefinitions cellName cellType =
      .ok { id := cellName
            template := CUSTOM_GENERIC
            connections := []
            metadata := { customId := some (Int.ofNat cid)
                          portWidths := portWidthsOfMeta meta } } := by
  unfold lowerCustomCell
  rw [hmap, hdef]

theorem c5_custom_cell_lowered_witness :
    getA [("child8", 12345)] "child8" = some 12345 ∧
    getA [("child8", (⟨⟨0, 0, 1, 1⟩, []⟩ : CustomComponentMeta))] "child8" =
      some ⟨⟨0, 0, 1, 1⟩, []⟩ ∧
    lowerCustomCell (fun meta => meta.ports.map (fun p => (p.id, 8)))
        [("child8", 12345)] [("child8", ⟨⟨0, 0, 1, 1⟩, []⟩)] "c1" "child8" =
      .ok { id := "c1"
            template := CUSTOM_GENERIC
            connections := []
            metadata := { customId := some (Int.ofNat 12345)
                          portWidths := [] } } :=
  ⟨by decide, by decide,
    c5_custom_cell_lowered (fun meta => meta.ports.map (fun p => (p.id, 8)))
      [("child8", 12345)] [("child8", ⟨⟨0, 0, 1, 1⟩, []⟩)] "c1" "child8" 12345
      ⟨⟨0, 0, 1, 1⟩, []⟩ (by decide) (by decide)⟩

/-! ## Cleanup of unused splitters and makers (`cleanupRedundantComponents`, `src/netlist/adapter.ts` lines 599-662) -/

/-- String prefix test, the semantics of JS `String.prototype.startsWith`
over the character sequence (executable; the built-in byte-based
`String.startsWith` does not reduce in the kernel). -/
def idStartsWith (s pre : String) : Bool :=
  hasPrefixSeq s.data pre.data

/-- The `used` scan of `cleanupRedundantComponents`: some `out*` connection
of the component leads to a net that currently has at least one sink
(`src/netlist/adapter.ts` lines 616-625). -/
def connectionsOutUsed (nets : NetsMap) (comp : ComponentInstance) : Bool :=
  comp.connections.any (fun kv =>
    idStartsWith kv.1 "out" &&
      (match getA nets kv.2 with
       | some net => net.sinks.length > 0
       | none => false))

/-- The net updates performed when a component is marked for removal
(`src/netlist/adapter.ts` lines 628-651): drop the component from the sink
lists of its input nets, then clear the source of each of its `out*` nets
when that source is the component itself. -/
def removeCompFromNets (nets : NetsMap) (comp : ComponentInstance) : NetsMap :=
  let nets1 := comp.template.ports.foldl
    (fun acc port =>
      if port.direction = PortDir.input then
        match getA comp.connections port.id with
        | some inNetId =>
          match getA acc inNetId with
          | some inNet =>
            setA acc inNetId
              { inNet with sinks := inNet.sinks.filter (fun s => s.componentId ≠ comp.id) }
          | none => acc
        | none => acc
      else acc) nets
  comp.connections.foldl
    (fun acc kv =>
      if idStartsWith kv.1 "out" then
        match getA acc kv.2 with
        | some outNet =>
          if outNet.source.map (fun s => s.componentId) = some comp.id then
            setA acc kv.2 { outNet with source := none }
          else acc
        | none => acc
      else acc) nets1

/-- One step of the component scan inside the `while (changed)` loop: a
splitter or maker with no used output is added to `toRemove` and disconnected
from the net table; everything else is left alone. -/
def cleanupStep (acc : List String × NetsMap) (comp : ComponentInstance) :
    List String × NetsMap :=
  if idStartsWith comp.template.id "SPLITTER_" || idStartsWith comp.template.id "MAKER_" then
    if connectionsOutUsed acc.2 comp then acc
    else (acc.1 ++ [comp.id], removeCompFromNets acc.2 comp)
  else acc

/-- One full `for (const comp of currentComponents)` pass, threading the
mutated net table; returns the `toRemove` id set (as a list) and the new
net table. -/
def cleanupPass (comps : List ComponentInstance) (nets : NetsMap) :
    List String × NetsMap :=
  comps.foldl cleanupStep ([], nets)

/-- The `while (changed)` loop of `cleanupRedundantComponents`
(`src/netlist/adapter.ts` lines 604-659) on explicit fuel: when a pass marks
nothing the loop exits (a marking-free pass performs no net mutation, so the
incoming table is returned); otherwise the marked components are filtered
out and the loop repeats. Each repeating pass removes at least one
component, so `comps.length + 1` fuel always suffices. -/
def cleanupLoop (fuel : Nat) (comps : List ComponentInstance) (nets : NetsMap) :
    List ComponentInstance × NetsMap :=
  match fuel with
  | 0 => (comps, nets)
  | fuel + 1 =>
    let pass := cleanupPass comps nets
    if pass.1.isEmpty then (comps, nets)
    else cleanupLoop fuel (comps.filter (fun c => !(pass.1.contains c.id))) pass.2

/-- `cleanupRedundantComponents` of `src/netlist/adapter.ts` (lines
599-662). -/
def cleanupRedundantComponents (comps : List ComponentInstance) (nets : NetsMap) :
    List ComponentInstance × NetsMap :=
  cleanupLoop (comps.length + 1) comps nets

lemma cleanupPass_mem (comps : List ComponentInstance) :
    ∀ (acc : List String × NetsMap) (r : String),
      r ∈ (comps.foldl cleanupStep acc).1 →
      r ∈ acc.1 ∨ ∃ c ∈ comps, c.id = r ∧
        (idStartsWith c.template.id "SPLITTER_" = true ∨
         idStartsWith c.template.id "MAKER_" = true) := by
  induction comps with
  | nil => intro acc r h; exact Or.inl h
  | cons c rest ih =>
    intro acc r h
    rw [List.foldl_cons] at h
    rcases ih (cleanupStep acc c) r h with h1 | h2
    · unfold cleanupStep at h1
      by_cases hsm : (idStartsWith c.template.id "SPLITTER_" ||
          idStartsWith c.template.id "MAKER_") = true
      · rw [if_pos hsm] at h1
        by_cases hused : connectionsOutUsed acc.2 c = true
        · rw [if_pos hused] at h1
          exact Or.inl h1
        · rw [if_neg hused] at h1
          rcases List.mem_append.mp h1 with ha | hb
          · exact Or.inl ha
          · right
            refine ⟨c, List.mem_cons_self c rest, (List.mem_singleton.mp hb).symm, ?_⟩
            exact Bool.or_eq_true_iff.mp hsm
      · rw [if_neg hsm] at h1
        exact Or.inl h1
    · obtain ⟨c', hc', hrest⟩ := h2
      exact Or.inr ⟨c', List.mem_cons_of_mem _ hc', hrest⟩

lemma length_filter_lt_of_exists {α : Type} (l : List α) (p : α → Bool)
    (h : ∃ x ∈ l, p x = false) : (l.filter p).length < l.length := by
  induction l with
  | nil =>
    obtain ⟨x, hx, -⟩ := h
    cases hx
  | cons a rest ih =>
    obtain ⟨x, hx, hpx⟩ := h
    rcases List.mem_cons.mp hx with heq | hx'
    · subst heq
      rw [List.filter_cons, if_neg (by rw [hpx]; exact Bool.false_ne_true)]
      have := List.length_filter_le p rest
      simp only [List.length_cons]
      omega
    · by_cases hpa : p a = true
      · rw [List.filter_cons, if_pos hpa]
        have := ih ⟨x, hx', hpx⟩
        simp only [List.length_cons]
        omega
      · rw [List.filter_cons, if_neg hpa]
        have := List.length_filter_le p rest
        simp only [List.length_cons]
        omega

lemma cleanupLoop_succ (f : Nat) (comps : List ComponentInstance) (nets : NetsMap) :
    cleanupLoop (f + 1) comps nets =
      if (cleanupPass comps nets).1.isEmpty then (comps, nets)
      else cleanupLoop f (comps.filter (fun c => !((cleanupPass comps nets).1.contains c.id)))
        (cleanupPass comps nets).2 := rfl

lemma cleanupPass_nonempty_filter_lt (comps : List ComponentInstance) (nets : NetsMap)
    (hne : ¬ (cleanupPass comps nets).1.isEmpty = true) :
    (comps.filter (fun c => !((cleanupPass comps nets).1.contains c.id))).length <
      comps.length := by
  apply length_filter_lt_of_exists
  obtain ⟨r, hr⟩ : ∃ r, r ∈ (cleanupPass comps nets).1 := by
    cases hl : (cleanupPass comps nets).1 with
    | nil => rw [hl] at hne; exact absurd rfl hne
    | cons a tl => exact ⟨a, List.mem_cons_self a tl⟩
  rcases cleanupPass_mem comps ([], nets) r hr with h0 | ⟨c, hc, hid, -⟩
  · cases h0
  · refine ⟨c, hc, ?_⟩
    rw [hid]
    have : (cleanupPass comps nets).1.contains r = true := List.elem_eq_true_of_mem hr
    rw [this]
    rfl

lemma cleanupLoop_fuel_eq :
    ∀ (fuel1 : Nat) (comps : List ComponentInstance) (nets : NetsMap) (fuel2 : Nat),
      comps.length < fuel1 → comps.length < fuel2 →
      cleanupLoop fuel1 comps nets = cleanupLoop fuel2 comps nets := by
  intro fuel1
  induction fuel1 with
  | zero =>
    intro comps nets fuel2 h1 h2
    omega
  | succ f ih =>
    intro comps nets fuel2 h1 h2
    cases fuel2 with
    | zero => omega
    | succ f2 =>
      rw [cleanupLoop_succ, cleanupLoop_succ]
      by_cases he : (cleanupPass comps nets).1.isEmpty = true
      · rw [if_pos he, if_pos he]
      · rw [if_neg he, if_neg he]
        have hlt := cleanupPass_nonempty_filter_lt comps nets he
        exact ih _ _ f2 (by omega) (by omega)

lemma cleanupLoop_sublist_removed :
    ∀ (fuel : Nat) (comps : List ComponentInstance) (nets : NetsMap),
      (comps.map (fun c => c.id)).Nodup →
      (cleanupLoop fuel comps nets).1.Sublist comps ∧
      (∀ c ∈ comps, c ∉ (cleanupLoop fuel comps nets).1 →
        (idStartsWith c.template.id "SPLITTER_" = true ∨
         idStartsWith c.template.id "MAKER_" = true)) := by
  intro fuel
  induction fuel with
  | zero =>
    intro comps nets hnd
    exact ⟨List.Sublist.refl _, fun c hc hnc => absurd hc hnc⟩
  | succ f ih =>
    intro comps nets hnd
    rw [cleanupLoop_succ]
    by_cases he : (cleanupPass comps nets).1.isEmpty = true
    · rw [if_pos he]
      exact ⟨List.Sublist.refl _, fun c hc hnc => absurd hc hnc⟩
    · rw [if_neg he]
      have hsubf : (comps.filter
          (fun c => !((cleanupPass comps nets).1.contains c.id))).Sublist comps :=
        List.filter_sublist comps
      have hndf : ((comps.filter
          (fun c => !((cleanupPass comps nets).1.contains c.id))).map
            (fun c => c.id)).Nodup :=
        (hsubf.map (fun c => c.id)).nodup hnd
      obtain ⟨ihs, ihr⟩ := ih _ (cleanupPass comps nets).2 hndf
      refine ⟨ihs.trans hsubf, ?_⟩
      intro c hc hnc
      by_cases hcf : c ∈ comps.filter (fun c => !((cleanupPass comps nets).1.contains c.id))
      · exact ihr c hcf hnc
      · have hcontains : (cleanupPass comps nets).1.contains c.id = true := by
          by_contra hmem
          exact hcf (List.mem_filter.mpr ⟨hc, by
            rw [Bool.eq_false_iff.mpr hmem]; rfl⟩)
        have hmemr : c.id ∈ (cleanupPass comps nets).1 :=
          List.mem_of_elem_eq_true hcontains
        rcases cleanupPass_mem comps ([], nets) c.id hmemr with h0 | ⟨c', hc', hid', hprop⟩
        · cases h0
        · have hcc : c' = c :=
            List.inj_on_of_nodup_map hnd hc' hc hid'
          rw [← hcc]
          exact hprop

/-- C10: the iterative cleanup of unused splitters and makers terminates —
each `while` iteration either removes at least one component (the surviving
list is strictly shorter, so `comps.length + 1` iterations always suffice
and any larger fuel computes the same result) or exits — the surviving
component list is a sublist of the input, and only components whose template
id starts with `SPLITTER_` or `MAKER_` are ever removed by this pass. -/
theorem c10_cleanup_terminates_only_splitters_makers
    (comps : List ComponentInstance) (nets : NetsMap)
    (hnd : (comps.map (fun c => c.id)).Nodup) :
    (∀ fuel, comps.length < fuel →
      cleanupLoop fuel comps nets = cleanupRedundantComponents comps nets) ∧
    (cleanupRedundantComponents comps nets).1.Sublist comps ∧
    (∀ c ∈ comps, c ∉ (cleanupRedundantComponents comps nets).1 →
      (idStartsWith c.template.id "SPLITTER_" = true ∨
       idStartsWith c.template.id "MAKER_" = true)) := by
  obtain ⟨hs, hr⟩ := cleanupLoop_sublist_removed (comps.length + 1) comps nets hnd
  exact ⟨fun fuel hf => cleanupLoop_fuel_eq fuel comps nets (comps.length + 1) hf (by omega),
    hs, hr⟩

/-- A netlist with one unused splitter (its only `out*` net has no sinks)
and one NOT gate, for the cleanup witness. -/
def c10Comps : List ComponentInstance :=
  [{ id := "gen_c0", template := splitterTemplate 8,
     connections := [("in", "bus"), ("out0", "b0")], metadata := {} },
   { id := "n1", template := NOT_1,
     connections := [("A", "x"), ("Y", "y")], metadata := {} }]

/-- Net table for `c10Comps`. -/
def c10Nets : NetsMap :=
  [("bus", { id := "bus", source := none, sinks := [⟨"gen_c0", "in"⟩] }),
   ("b0", { id := "b0", source := some ⟨"gen_c0", "out0"⟩, sinks := [] })]

example : (cleanupRedundantComponents c10Comps c10Nets).1 =
    [{ id := "n1", template := NOT_1,
       connections := [("A", "x"), ("Y", "y")], metadata := {} }] := by decide

theorem c10_cleanup_terminates_only_splitters_makers_witness :
    ((c10Comps.map (fun c => c.id)).Nodup) ∧
    ((∀ fuel, c10Comps.length < fuel →
        cleanupLoop fuel c10Comps c10Nets = cleanupRedundantComponents c10Comps c10Nets) ∧
     (cleanupRedundantComponents c10Comps c10Nets).1.Sublist c10Comps ∧
     (∀ c ∈ c10Comps, c ∉ (cleanupRedundantComponents c10Comps c10Nets).1 →
        (idStartsWith c.template.id "SPLITTER_" = true ∨
         idStartsWith c.template.id "MAKER_" = true))) :=
  ⟨by decide, c10_cleanup_terminates_only_splitters_makers c10Comps c10Nets (by decide)⟩

/-! ## Lowering pass (`buildNetlistFromYosys`, `src/netlist/adapter.ts`)

The embedding below covers the paths of `buildNetlistFromYosys` that the
claims exercise: module-port lowering, bit normalization, `packBits` /
`unpackBits`, the comparison-cell branch (`$lt`/`$gt`/`$le`/`$ge`), the
maker-splitter pair merge, the cleanup pass and the zero-constant
optimization of `src/pipeline/verilogToTc.ts`. Cells of any other type fall
to an error case; the other cell branches of the source are not modelled and
no claim below depends on them. -/

/-- A synthesizer bit reference: a JSON number or a string (`"0"`, `"1"`,
`"x"`, `"z"`, or a digit string). -/
inductive YBit where
  | num (v : Nat)
  | str (s : String)
deriving DecidableEq, Repr

/-- The result of `normalizeBit` (`src/netlist/adapter.ts` lines 195-216):
an internal net id and the constant tag for literal bits. -/
structure BitInfo where
  id : String
  constant : Option Nat := none
deriving DecidableEq, Repr

/-- Mutable lowering state: the component list, the net table, the two
constant counters (`counter.zero` / `counter.one`) and the generated-id
counter of `idGen`. -/
structure AdapterState where
  components : List ComponentInstance := []
  nets : NetsMap := []
  counterZero : Nat := 0
  counterOne : Nat := 0
  compCounter : Nat := 0
deriving Repr

/-- `normalizeBit` of `src/netlist/adapter.ts` (lines 195-216): numbers map
to their decimal string, `"0"`/`"x"`/`"z"` mint a fresh constant-0 id,
`"1"` a fresh constant-1 id, digit strings pass through, anything else
throws. -/
def normalizeBit (bit : YBit) (st : AdapterState) :
    Except String (BitInfo × AdapterState) :=
  match bit with
  | .num v => .ok ({ id := toString v }, st)
  | .str s =>
    if s = "0" then
      .ok ({ id := "__const0_" ++ toString st.counterZero, constant := some 0 },
           { st with counterZero := st.counterZero + 1 })
    else if s = "1" then
      .ok ({ id := "__const1_" ++ toString st.counterOne, constant := some 1 },
           { st with counterOne := st.counterOne + 1 })
    else if s = "x" || s = "z" then
      .ok ({ id := "__const0_" ++ toString st.counterZero, constant := some 0 },
           { st with counterZero := st.counterZero + 1 })
    else if s.data ≠ [] ∧ s.data.all Char.isDigit then
      .ok ({ id := s }, st)
    else
      .error ("Unsupported bit reference " ++ s)

/-- `idGen.next()` of `buildNetlistFromYosys` (line 681). -/
def idGenNext (st : AdapterState) : String × AdapterState :=
  ("gen_c" ++ toString st.compCounter, { st with compCounter := st.compCounter + 1 })

/-- `instantiate` of `src/netlist/adapter.ts` (lines 243-253). -/
def instantiate (template : ComponentTemplate) (id : String) : ComponentInstance :=
  { id := id, template := template, connections := [], metadata := {} }

/-- In-place mutation of a pushed component object (JS object aliasing):
replace the entry with the given id. -/
def updateComponent (comps : List ComponentInstance) (cid : String)
    (f : ComponentInstance → ComponentInstance) : List ComponentInstance :=
  comps.map (fun c => if c.id = cid then f c else c)

/-- `ensureDriverIfConstant` of `src/netlist/adapter.ts` (lines 255-273):
when the bit is a constant and its net is not yet driven, push an `Off`/`On`
driver component and register it as the net's source. -/
def ensureDriverIfConstant (bitInfo : BitInfo) (destinationId portName : String)
    (st : AdapterState) : Except String AdapterState :=
  match bitInfo.constant with
  | none => .ok st
  | some c =>
    if ((getA st.nets bitInfo.id).bind (fun n => n.source)).isSome then .ok st
    else
      let constId := destinationId ++ ":" ++ portName ++ ":const"
      let constTemplate := if c = 0 then CONST_0 else CONST_1
      let constInstance :=
        { instantiate constTemplate constId with connections := [("out", bitInfo.id)] }
      match registerSource st.nets bitInfo.id ⟨constId, "out"⟩ with
      | .error e => .error e
      | .ok nets' =>
        .ok { st with components := st.components ++ [constInstance], nets := nets' }

/-- `resolveSize` of `src/netlist/adapter.ts` (lines 503-510). -/
def resolveSize (width : Nat) : Except String Nat :=
  if width = 1 then .ok 1
  else if width ≤ 8 then .ok 8
  else if width ≤ 16 then .ok 16
  else if width ≤ 32 then .ok 32
  else if width ≤ 64 then .ok 64
  else .error ("Unsupported width " ++ toString width ++ " (max 64)")

/-- Decimal value of a digit run, the behaviour of `parseInt` on the ids the
adapter feeds it (always pure digit strings). -/
def parseNatDigits (cs : List Char) : Nat :=
  cs.foldl (fun acc c => acc * 10 + (c.toNat - 48)) 0

/-- The `template.id.split("_")[1]` + `parseInt` idiom of the splitter-merge
check (`src/netlist/adapter.ts` line 307): the digits after the first
underscore. -/
def sizeAfterUnderscore : List Char → Nat
  | [] => 0
  | c :: rest => if c = '_' then parseNatDigits (rest.takeWhile Char.isDigit)
                 else sizeAfterUnderscore rest

example : sizeAfterUnderscore "SPLITTER_8".data = 8 := by decide
example : sizeAfterUnderscore "SPLITTER_64".data = 64 := by decide

/-- `packBits` of `src/netlist/adapter.ts` (lines 287-420) on explicit fuel
(recursion depth is at most 2 — a hierarchical maker packs 8-bit chunks —
so any fuel above 2 behaves identically): size-1 shortcut, splitter
round-trip erasure, all-constant collapse to a `CONST_N`, hierarchical maker
for sizes above 8, standard maker otherwise (the source reads `bits[0]`
unconditionally, so an empty bit list is an error case). -/
def packBits (fuel : Nat) (bits : List BitInfo) (targetSize : Nat) (st : AdapterState) :
    Except String (String × AdapterState) :=
  match fuel with
  | 0 => .error "packBits fuel exhausted"
  | fuel + 1 =>
    match bits with
    | [] => .error "packBits on empty bit list"
    | b0 :: _ =>
      if targetSize = 1 then .ok (b0.id, st)
      else
        let merged : Option String :=
          match (getA st.nets b0.id).bind (fun n => n.source) with
          | none => none
          | some firstDriver =>
            match st.components.find? (fun c => decide (c.id = firstDriver.componentId)) with
            | none => none
            | some driverComp =>
              if idStartsWith driverComp.template.id "SPLITTER_" then
                if sizeAfterUnderscore driverComp.template.id.data = targetSize ∧
                    bits.length ≤ targetSize then
                  if targetSize ≤ 8 then
                    let allMatch := bits.enum.all (fun ib =>
                      match (getA st.nets ib.2.id).bind (fun n => n.source) with
                      | some d => decide (d.componentId = firstDriver.componentId ∧
                          d.portId = "out" ++ toString ib.1)
                      | none => false)
                    if allMatch then getA driverComp.connections "in"
                    else none
                  else none
                else none
              else none
        match merged with
        | some busId => .ok (busId, st)
        | none =>
          let allConst := bits.all (fun b => b.constant.isSome)
          let constValue := bits.enum.foldl
            (fun acc ib => if ib.2.constant = some 1 then acc ||| (1 <<< ib.1) else acc) 0
          if allConst ∧ bits.length ≤ targetSize then do
            let (constId, st) := idGenNext st
            let tpl ← getTemplate ("CONST_" ++ toString targetSize)
            let busId := constId ++ "_val"
            let inst :=
              { instantiate tpl constId with
                connections := [("out", busId)],
                metadata := { setting1 := some (Int.ofNat constValue) } }
            let nets' ← registerSource st.nets busId ⟨constId, "out"⟩
            .ok (busId, { st with components := st.components ++ [inst], nets := nets' })
          else if targetSize > 8 then do
            let (makerId, st) := idGenNext st
            let makerTpl ← getTemplate ("MAKER_" ++ toString targetSize)
            let st := { st with components := st.components ++ [instantiate makerTpl makerId] }
            let chunks := targetSize / 8
            let st ← (List.range chunks).foldlM (fun st i => do
              let chunkBits := (List.range 8).map (fun j =>
                let bitIndex := i * 8 + j
                match bits[bitIndex]? with
                | some b => b
                | none => { id := "__const0_0", constant := some 0 })
              let (subBus, st) ← packBits fuel chunkBits 8 st
              let st := { st with
                components := (updateComponent st.components makerId
                  (fun c => { c with
                    connections := setA c.connections ("in" ++ toString i) subBus })),
                nets := registerSink st.nets subBus ⟨makerId, "in" ++ toString i⟩ }
              pure st) st
            let busId := makerId ++ "_bus"
            let st := { st with components := (updateComponent st.components makerId
              (fun c => { c with connections := setA c.connections "out" busId })) }
            let nets' ← registerSource st.nets busId ⟨makerId, "out"⟩
            .ok (busId, { st with nets := nets' })
          else do
            let (makerId, st) := idGenNext st
            let makerDesc ← getTemplate ("MAKER_" ++ toString targetSize)
            let st := { st with components := st.components ++ [instantiate makerDesc makerId] }
            let st ← (List.range targetSize).foldlM (fun st i => do
              let (bitId, st) ← (do
                match bits[i]? with
                | some b => do
                  let st ← ensureDriverIfConstant b makerId ("in" ++ toString i) st
                  pure (b.id, st)
                | none => do
                  let bitId := "__pad_0_" ++ makerId ++ "_" ++ toString i
                  let constId := makerId ++ ":pad:" ++ toString i
                  let constInst :=
                    { instantiate CONST_0 constId with connections := [("out", bitId)] }
                  let st := { st with components := st.components ++ [constInst] }
                  let nets' ← registerSource st.nets bitId ⟨constId, "out"⟩
                  pure (bitId, { st with nets := nets' }) : Except String (String × AdapterState))
              let st := { st with
                components := (updateComponent st.components makerId
                  (fun c => { c with
                    connections := setA c.connections ("in" ++ toString i) bitId })),
                nets := registerSink st.nets bitId ⟨makerId, "in" ++ toString i⟩ }
              pure st) st
            let busId := makerId ++ "_bus"
            let st := { st with components := (updateComponent st.components makerId
              (fun c => { c with connections := setA c.connections "out" busId })) }
            let nets' ← registerSource st.nets busId ⟨makerId, "out"⟩
            .ok (busId, { st with nets := nets' })

/-- `unpackBits` of `src/netlist/adapter.ts` (lines 422-501) on explicit
fuel: size-1 source forwarding, hierarchical splitter above 8 recursing on
8-bit chunk slices, standard splitter otherwise. -/
def unpackBits (fuel : Nat) (busId : String) (targetBits : List BitInfo)
    (targetSize : Nat) (st : AdapterState) : Except String AdapterState :=
  match fuel with
  | 0 => .error "unpackBits fuel exhausted"
  | fuel + 1 =>
    if targetSize = 1 ∧ targetBits.length = 1 then
      match (getA st.nets busId).bind (fun n => n.source) with
      | some source =>
        match targetBits with
        | [tb] =>
          if tb.constant.isSome then .ok st
          else do
            let nets' ← registerSource st.nets tb.id source
            .ok { st with nets := nets' }
        | _ => .ok st
      | none => .ok st
    else if targetSize > 8 then do
      let (splitterId, st) := idGenNext st
      let tpl ← getTemplate ("SPLITTER_" ++ toString targetSize)
      let splitter := { instantiate tpl splitterId with connections := [("in", busId)] }
      let st := { st with
        components := st.components ++ [splitter],
        nets := registerSink st.nets busId ⟨splitterId, "in"⟩ }
      let chunks := targetSize / 8
      (List.range chunks).foldlM (fun st i => do
        let subBusId := splitterId ++ "_out" ++ toString i
        let st := { st with components := (updateComponent st.components splitterId
            (fun c => { c with connections := setA c.connections ("out" ++ toString i) subBusId })) }
        let nets' ← registerSource st.nets subBusId ⟨splitterId, "out" ++ toString i⟩
        let st := { st with nets := nets' }
        let start := i * 8
        let stop := min ((i + 1) * 8) targetBits.length
        if start < targetBits.length then
          unpackBits fuel subBusId ((targetBits.drop start).take (stop - start)) 8 st
        else pure st) st
    else do
      let (splitterId, st) := idGenNext st
      let tpl ← getTemplate ("SPLITTER_" ++ toString targetSize)
      let splitter := { instantiate tpl splitterId with connections := [("in", busId)] }
      let st := { st with
        components := st.components ++ [splitter],
        nets := registerSink st.nets busId ⟨splitterId, "in"⟩ }
      targetBits.enum.foldlM (fun st ib => do
        if ib.2.constant.isSome then .error "Cannot assign to constant"
        else do
          let st := { st with components := (updateComponent st.components splitterId
              (fun c => { c with connections := setA c.connections ("out" ++ toString ib.1) ib.2.id })) }
          let nets' ← registerSource st.nets ib.2.id ⟨splitterId, "out" ++ toString ib.1⟩
          pure { st with nets := nets' }) st

example :
    (packBits 65 [{ id := "__const0_0", constant := some 0 }] 8 {}).toOption.map
      (fun r => (r.1, r.2.components.length)) = some ("gen_c0_val", 1) := by decide

example :
    (packBits 65 [{ id := "b7" }, { id := "b8" }] 8 {}).toOption.map
      (fun r => (r.1, r.2.components.length,
        (r.2.components.headD (instantiate CONST_0 "x")).template.id)) =
      some ("gen_c0_bus", 7, "MAKER_8") := by decide

/-- A synthesizer parameter value (string or number). -/
inductive YParamVal where
  | num (n : Nat)
  | str (s : String)
deriving DecidableEq, Repr

/-- A synthesizer cell: type string, parameter map, connection map
(`YosysCell` of `src/netlist/adapter.ts`). -/
structure YCell where
  ctype : String
  parameters : List (String × YParamVal) := []
  connections : List (String × List YBit) := []
deriving DecidableEq, Repr

/-- `parseParamInt` of `src/netlist/adapter.ts` (lines 275-285): numbers
pass through; a multi-character string of 0/1 parses as binary, any other
string as decimal (parameters the adapter meets are well-formed digit
strings, so `parseInt`'s NaN case is modelled as 0). -/
def parseParamInt (val : Option YParamVal) : Nat :=
  match val with
  | none => 0
  | some (.num n) => n
  | some (.str s) =>
    if s.data ≠ [] ∧ s.data.all (fun c => c = '0' ∨ c = '1') ∧ s.length > 1 then
      s.data.foldl (fun acc c => acc * 2 + (c.toNat - 48)) 0
    else if s.data.takeWhile Char.isDigit ≠ [] then
      parseNatDigits (s.data.takeWhile Char.isDigit)
    else 0

/-- `ensureArray` of `src/netlist/adapter.ts` (lines 179-193) without the
width check (no caller in the embedded paths passes one). -/
def ensureArray (conns : List (String × List YBit)) (name : String) :
    Except String (List YBit) :=
  match getA conns name with
  | none => .error ("Expected connection " ++ name)
  | some bits => .ok bits

/-- Normalize a whole bit list (`bits.map(b => normalizeBit(b, counter))`),
threading the constant counters left to right. -/
def normalizeBits (bits : List YBit) (st : AdapterState) :
    Except String (List BitInfo × AdapterState) :=
  bits.foldlM (fun (acc : List BitInfo × AdapterState) bit => do
    let (info, st') ← normalizeBit bit acc.2
    pure (acc.1 ++ [info], st')) ([], st)

/-- Fuel handed to `packBits` / `unpackBits` by the embedded callers; the
recursion depth is at most 2, so this never runs out. -/
def PACK_FUEL : Nat := 65

/-- The comparison-cell branch of `buildNetlistFromYosys`
(`src/netlist/adapter.ts` lines 2600-2690) for `$lt` / `$gt` / `$le` /
`$ge`: width is the max of `A_WIDTH` and `B_WIDTH`; `A_SIGNED > 0` selects
`LESSI_N` over `LESSU_N`; `$gt` and `$le` swap the packed A/B buses onto
the opposite ports; `$ge` and `$le` route the 1-bit comparator output
through a fresh `NOT_1` before unpacking onto Y. -/
def lowerComparisonCell (cellName : String) (cell : YCell) (st0 : AdapterState) :
    Except String AdapterState := do
  let width := max (parseParamInt (getA cell.parameters "A_WIDTH"))
                   (parseParamInt (getA cell.parameters "B_WIDTH"))
  let size ← resolveSize width
  let signed := decide (parseParamInt (getA cell.parameters "A_SIGNED") > 0)
  let instanceId := cellName
  let tmplPrefix := if signed then "LESSI" else "LESSU"
  let tmplId := tmplPrefix ++ "_" ++ toString size
  let swap := cell.ctype = "$gt" || cell.ctype = "$le"
  let invert := cell.ctype = "$ge" || cell.ctype = "$le"
  let tpl ← getTemplate tmplId
  let st := { st0 with components := st0.components ++ [instantiate tpl instanceId] }
  let aRaw ← ensureArray cell.connections "A"
  let (aBits, st) ← normalizeBits aRaw st
  let bRaw ← ensureArray cell.connections "B"
  let (bBits, st) ← normalizeBits bRaw st
  let (aPacked, st) ← packBits PACK_FUEL aBits size st
  let (bPacked, st) ← packBits PACK_FUEL bBits size st
  let st := { st with components := (updateComponent st.components instanceId
    (fun c => { c with connections :=
      (setA (setA c.connections "A" (if swap then bPacked else aPacked))
        "B" (if swap then aPacked else bPacked)) })) }
  let st := { st with nets :=
    (registerSink (registerSink st.nets (if swap then bPacked else aPacked)
        ⟨instanceId, "A"⟩)
      (if swap then aPacked else bPacked) ⟨instanceId, "B"⟩) }
  let cmpOut := instanceId ++ "_cmp_out"
  let st := { st with components := (updateComponent st.components instanceId
    (fun c => { c with connections := setA c.connections "out" cmpOut })) }
  let nets' ← registerSource st.nets cmpOut ⟨instanceId, "out"⟩
  let st := { st with nets := nets' }
  let yRaw ← ensureArray cell.connections "Y"
  if invert then do
    let notId := instanceId ++ "_invert"
    let notInst := { instantiate NOT_1 notId with connections := [("A", cmpOut)] }
    let st := { st with
      components := st.components ++ [notInst],
      nets := registerSink st.nets cmpOut ⟨notId, "A"⟩ }
    let notOut := notId ++ "_out"
    let st := { st with components := (updateComponent st.components notId
      (fun c => { c with connections := setA c.connections "Y" notOut })) }
    let nets' ← registerSource st.nets notOut ⟨notId, "Y"⟩
    let st := { st with nets := nets' }
    let (yBits, st) ← normalizeBits yRaw st
    unpackBits PACK_FUEL notOut yBits 1 st
  else do
    let (yBits, st) ← normalizeBits yRaw st
    unpackBits PACK_FUEL cmpOut yBits 1 st

/-- The per-input scan of `optimizeMakerSplitterPairs`
(`src/netlist/adapter.ts` lines 524-559): walk `in0 .. in(n-1)`, requiring
each to be driven by `out<i>` of one and the same splitter; returns
`some sourceSplitterId` when all inputs match (`none` models
`isRedundant = false`). The first argument counts the inputs left to scan. -/
def checkMakerInputsAux (comps : List ComponentInstance) (nets : NetsMap)
    (comp : ComponentInstance) :
    Nat → Nat → Option String → Option (Option String)
  | 0, _, src => some src
  | remaining + 1, i, src =>
    match getA comp.connections ("in" ++ toString i) with
    | none => none
    | some inNetId =>
      match getA nets inNetId with
      | none => none
      | some net =>
        match net.source with
        | none => none
        | some srcRef =>
          match comps.find? (fun c => decide (c.id = srcRef.componentId)) with
          | none => none
          | some srcComp =>
            if ¬ (idStartsWith srcComp.template.id "SPLITTER_" = true) then none
            else if srcRef.portId ≠ "out" ++ toString i then none
            else
              match src with
              | none => checkMakerInputsAux comps nets comp remaining (i + 1)
                  (some srcComp.id)
              | some sid =>
                if sid = srcComp.id then
                  checkMakerInputsAux comps nets comp remaining (i + 1) (some sid)
                else none

/-- The rewiring performed for one redundant maker
(`src/netlist/adapter.ts` lines 561-593): move the maker-output sinks onto
the splitter-input net, repoint the sink components' connections, clear the
maker-output net and delete the maker's `out` connection. -/
def mergeRedundantMaker (comps : List ComponentInstance) (nets : NetsMap)
    (comp : ComponentInstance) (sourceSplitterId : String) :
    List ComponentInstance × NetsMap :=
  match comps.find? (fun c => decide (c.id = sourceSplitterId)) with
  | none => (comps, nets)
  | some splitter =>
    match getA splitter.connections "in", getA comp.connections "out" with
    | some splitterInNetId, some makerOutNetId =>
      if splitterInNetId = makerOutNetId then (comps, nets)
      else
        match getA nets splitterInNetId, getA nets makerOutNetId with
        | some splitterInNet, some makerOutNet =>
          let comps1 := makerOutNet.sinks.foldl
            (fun cs sink => updateComponent cs sink.componentId
              (fun c => { c with connections := setA c.connections sink.portId splitterInNetId }))
            comps
          let nets1 := setA nets splitterInNetId
            { splitterInNet with sinks := splitterInNet.sinks ++ makerOutNet.sinks }
          let nets2 := setA nets1 makerOutNetId
            { makerOutNet with sinks := [], source := none }
          let comps2 := updateComponent comps1 comp.id
            (fun c => { c with connections := delA c.connections "out" })
          (comps2, nets2)
        | _, _ => (comps, nets)
    | _, _ => (comps, nets)

/-- `optimizeMakerSplitterPairs` of `src/netlist/adapter.ts` (lines
513-596): scan the component array in order (elements mutate as the scan
proceeds, so each index is re-read from the current state); a maker whose
inputs all come in order from one splitter is rewired away. -/
def optimizeMakerSplitterPairs (components0 : List ComponentInstance) (nets0 : NetsMap) :
    List ComponentInstance × NetsMap :=
  (List.range components0.length).foldl
    (fun (acc : List ComponentInstance × NetsMap) i =>
      match acc.1[i]? with
      | none => acc
      | some comp =>
        if ¬ (idStartsWith comp.template.id "MAKER_" = true) then acc
        else
          let inputs := comp.template.ports.filter (fun p => p.direction = PortDir.input)
          if inputs.length = 0 then acc
          else
            match checkMakerInputsAux acc.1 acc.2 comp inputs.length 0 none with
            | some (some sourceSplitterId) =>
              mergeRedundantMaker acc.1 acc.2 comp sourceSplitterId
            | _ => acc)
    (components0, nets0)

/-- JS `Set.add` on a list model: append only when absent. -/
def addToSet (s : List String) (x : String) : List String :=
  if s.contains x then s else s ++ [x]

/-- The multi-bit zero-constant template ids (`CONST_MULTI_IDS` of
`src/pipeline/verilogToTc.ts` line 560). -/
def CONST_MULTI_IDS : List String := ["CONST_8", "CONST_16", "CONST_32", "CONST_64"]

/-- Phase 1 of `optimizeNetlist` (`src/pipeline/verilogToTc.ts` lines
562-582): collect zero constants (an `Off`, or a multi-bit constant whose
`setting1` is 0) into the removal sets (the separate `zeroNetIds` set of the
source is only ever written, never read — the AND scan tests
`netsToRemove`). -/
def collectZeroConstants (components : List ComponentInstance) :
    List String × List String :=
  components.foldl
    (fun (acc : List String × List String) component =>
      let isZero := component.template.id = CONST_0.id ||
        (CONST_MULTI_IDS.contains component.template.id &&
          component.metadata.setting1 = some 0)
      if isZero then
        let nets' := match getA component.connections "out" with
          | some outNetId => addToSet acc.2 outNetId
          | none => acc.2
        (addToSet acc.1 component.id, nets')
      else acc)
    ([], [])

/-- Phase 2 of `optimizeNetlist` (`src/pipeline/verilogToTc.ts` lines
590-611): remove every `AND_1` one of whose inputs is a to-be-removed
(zero) net or floating, marking its `Y` net zero as well; the scan sees the
nets marked by earlier iterations. -/
def collectZeroAnds (components : List ComponentInstance)
    (acc0 : List String × List String) : List String × List String :=
  components.foldl
    (fun (acc : List String × List String) component =>
      if component.template.id = "AND_1" then
        let netA := getA component.connections "A"
        let netB := getA component.connections "B"
        let isInputZero :=
          (match netA with | some n => acc.2.contains n | none => false) ||
          (match netB with | some n => acc.2.contains n | none => false)
        if isInputZero || netA = none || netB = none then
          let acc1 := (addToSet acc.1 component.id, acc.2)
          match getA component.connections "Y" with
          | some outNetId => (acc1.1, addToSet acc1.2 outNetId)
          | none => acc1
        else acc
      else acc)
    acc0

/-- `optimizeNetlist` of `src/pipeline/verilogToTc.ts` (lines 550-650):
after collecting zero constants and zero-fed `AND_1`s, disconnect the
removed components from their nets, filter them out of the component list,
and delete the marked nets (removing the dangling connection entries of
their sinks). -/
def optimizeNetlist (g : NetlistGraph) : NetlistGraph :=
  let collected := collectZeroAnds g.components (collectZeroConstants g.components)
  let componentsToRemove := collected.1
  let netsToRemove := collected.2
  if componentsToRemove.isEmpty then g
  else
    let nets1 := componentsToRemove.foldl
      (fun nets compId =>
        match g.components.find? (fun c => decide (c.id = compId)) with
        | none => nets
        | some comp => comp.connections.foldl
            (fun nets kv =>
              match getA nets kv.2 with
              | some net => setA nets kv.2
                  { net with
                    sinks := net.sinks.filter (fun s => s.componentId ≠ compId),
                    source := if net.source.map (fun s => s.componentId) = some compId
                      then none else net.source }
              | none => nets)
            nets)
      g.nets
    let components1 := g.components.filter (fun c => !(componentsToRemove.contains c.id))
    let final := netsToRemove.foldl
      (fun (acc : List ComponentInstance × NetsMap) netId =>
        let comps' := match getA acc.2 netId with
          | some net => net.sinks.foldl
              (fun cs sink => updateComponent cs sink.componentId
                (fun c => { c with connections := delA c.connections sink.portId }))
              acc.1
          | none => acc.1
        (comps', delA acc.2 netId))
      (components1, nets1)
    { components := final.1, nets := final.2 }

/-- Port direction strings of the synthesizer JSON. -/
inductive YDirection where
  | input
  | output
  | inout
deriving DecidableEq, Repr

/-- A synthesizer module port (`YosysPort`). -/
structure YPort where
  direction : YDirection
  bits : List YBit
deriving DecidableEq, Repr

/-- A synthesizer module (`YosysModule`) restricted to the embedded cell
set. -/
structure YModule where
  ports : List (String × YPort) := []
  cells : List (String × YCell) := []
deriving DecidableEq, Repr

/-- Input-port lowering of `buildNetlistFromYosys`
(`src/netlist/adapter.ts` lines 683-716): a 1-bit port becomes an `INPUT_1`
driving the normalized bit's net; a wider port becomes an `INPUT_N` whose
bus is unpacked onto the bit nets. -/
def lowerInputPort (portName : String) (port : YPort) (st : AdapterState) :
    Except String AdapterState := do
  let size ← resolveSize port.bits.length
  if size = 1 then do
    match port.bits with
    | [] => .error "empty port"
    | bit :: _ => do
      let (bitInfo, st) ← normalizeBit bit st
      let componentId := "in:" ++ portName
      let inst := { instantiate INPUT_1 componentId with
        connections := [("out", bitInfo.id)],
        metadata := { label := some portName,
                      modulePort := some ⟨portName, 0⟩ } }
      let st := { st with components := st.components ++ [inst] }
      let nets' ← registerSource st.nets bitInfo.id ⟨componentId, "out"⟩
      pure { st with nets := nets' }
  else do
    let componentId := "in:" ++ portName
    let tpl ← getTemplate ("INPUT_" ++ toString size)
    let busId := componentId ++ "_bus"
    let inst := { instantiate tpl componentId with
      connections := [("out", busId)],
      metadata := { label := some portName } }
    let st := { st with components := st.components ++ [inst] }
    let (bits, st) ← normalizeBits port.bits st
    let nets' ← registerSource st.nets busId ⟨componentId, "out"⟩
    let st := { st with nets := nets' }
    unpackBits PACK_FUEL busId bits size st

/-- Output-port lowering of `buildNetlistFromYosys`
(`src/netlist/adapter.ts` lines 2959-2994): a 1-bit port becomes an
`OUTPUT_1` sinking the normalized bit's net (no driver requirement); a
wider port packs the bits and sinks the bus. -/
def lowerOutputPort (portName : String) (port : YPort) (st : AdapterState) :
    Except String AdapterState := do
  let size ← resolveSize port.bits.length
  let componentId := "out:" ++ portName
  if size = 1 then do
    match port.bits with
    | [] => .error "empty port"
    | bit :: _ => do
      let (bitInfo, st) ← normalizeBit bit st
      let inst := { instantiate OUTPUT_1 componentId with
        connections := [("in", bitInfo.id)],
        metadata := { label := some portName,
                      modulePort := some ⟨portName, 0⟩ } }
      let st := { st with components := st.components ++ [inst] }
      pure { st with nets := registerSink st.nets bitInfo.id ⟨componentId, "in"⟩ }
  else do
    let tpl ← getTemplate ("OUTPUT_" ++ toString size)
    let inst := { instantiate tpl componentId with
      metadata := { label := some portName } }
    let st := { st with components := st.components ++ [inst] }
    let (bits, st) ← normalizeBits port.bits st
    let (busId, st) ← packBits PACK_FUEL bits size st
    let st := { st with components := (updateComponent st.components componentId
      (fun c => { c with connections := setA c.connections "in" busId })) }
    pure { st with nets := registerSink st.nets busId ⟨componentId, "in"⟩ }

/-- `buildNetlistFromYosys` of `src/netlist/adapter.ts` (lines 664-3009)
restricted to the embedded cell set: lower input ports, then cells (only
the `$lt`/`$gt`/`$le`/`$ge` branch is modelled; any other type errors),
then output ports; run the maker-splitter merge and the splitter/maker
cleanup. The final loop over nets (lines 3001-3007) is empty — the
`Net lacks a driver` throw is commented out in the source — so undriven
nets pass through. -/
def buildNetlistFromYosys (m : YModule) : Except String NetlistGraph := do
  let st : AdapterState := {}
  let st ← m.ports.foldlM (fun st pp =>
    if pp.2.direction = YDirection.input then lowerInputPort pp.1 pp.2 st
    else pure st) st
  let st ← m.cells.foldlM (fun st cc =>
    if ["$lt", "$gt", "$le", "$ge"].contains cc.2.ctype then
      lowerComparisonCell cc.1 cc.2 st
    else .error ("cell type not modelled in this embedding: " ++ cc.2.ctype)) st
  let st ← m.ports.foldlM (fun st pp =>
    if pp.2.direction = YDirection.output then lowerOutputPort pp.1 pp.2 st
    else pure st) st
  let merged := optimizeMakerSplitterPairs st.components st.nets
  let cleaned := cleanupRedundantComponents merged.1 merged.2
  pure { components := cleaned.1, nets := cleaned.2 }

/-- The pipeline's lowering as `convertVerilogToSave` composes it
(`src/pipeline/verilogToTc.ts` lines 700-706): build the netlist, then run
the zero-constant optimization. -/
def lowerAndOptimize (m : YModule) : Except String NetlistGraph := do
  let g ← buildNetlistFromYosys m
  pure (optimizeNetlist g)

/-- A module whose single output port references bit 2, which nothing
drives: the input that exhibits the missing-driver code bug. -/
def c4FailingModule : YModule :=
  { ports := [("y", { direction := .output, bits := [.num 2] })], cells := [] }

/-- The netlist the pipeline returns on `c4FailingModule`. -/
def c4ResultGraph : NetlistGraph where
  components :=
    [{ id := "out:y"
       template := OUTPUT_1
       connections := [("in", "2")]
       metadata := { label := some "y", modulePort := some ⟨"y", 0⟩ } }]
  nets := [("2", { id := "2", source := none, sinks := [⟨"out:y", "in"⟩] })]

/-- C4 (code bug): the spec requires every net with at least one sink to
have exactly one source, and lists "module output port with no matching
driver" as an abort; but the final driver check of `buildNetlistFromYosys`
is commented out in the source (`src/netlist/adapter.ts` lines 3001-3007),
so on `c4FailingModule` the lowering pass together with the maker-splitter
merge, the cleanup pass and the zero-constant optimization returns a
netlist in which net "2" has one sink and no source. -/
theorem c4_sinked_net_without_source :
    ∃ g, lowerAndOptimize c4FailingModule = .ok g ∧
      ∃ net, getA g.nets "2" = some net ∧ net.sinks.length = 1 ∧ net.source = none := by
  refine ⟨c4ResultGraph, by decide,
    ⟨{ id := "2", source := none, sinks := [⟨"out:y", "in"⟩] }, by decide, by decide, by decide⟩⟩

lemma except_bind_ok {α β : Type} (a : α) (f : α → Except String β) :
    (Except.ok a >>= f) = f a := rfl

lemma except_bind_err {α β : Type} (e : String) (f : α → Except String β) :
    ((Except.error e : Except String α) >>= f) = .error e := rfl

lemma hasPrefixSeq_append_self (p t : List Char) :
    hasPrefixSeq (p ++ t) p = true := by
  induction p with
  | nil => cases t <;> rfl
  | cons c rest ih => simp [hasPrefixSeq, ih]

lemma idStartsWith_genc_concat (t : String) :
    idStartsWith ("gen_c" ++ t) "gen_c" = true := by
  unfold idStartsWith
  rw [String.data_append]
  exact hasPrefixSeq_append_self _ _

lemma mem_updateComponent_of_ne {comps : List ComponentInstance} {c : ComponentInstance}
    (hc : c ∈ comps) (cid : String) (f : ComponentInstance → ComponentInstance)
    (hne : c.id ≠ cid) : c ∈ updateComponent comps cid f := by
  have h2 : (if c.id = cid then f c else c) ∈ updateComponent comps cid f :=
    List.mem_map_of_mem _ hc
  rwa [if_neg hne] at h2

lemma mem_updateComponent_self {comps : List ComponentInstance} {c : ComponentInstance}
    (hc : c ∈ comps) (f : ComponentInstance → ComponentInstance) :
    f c ∈ updateComponent comps c.id f := by
  have h2 : (if c.id = c.id then f c else c) ∈ updateComponent comps c.id f :=
    List.mem_map_of_mem _ hc
  rwa [if_pos rfl] at h2

lemma mem_updateComponent_of_not_genc {comps : List ComponentInstance}
    {c : ComponentInstance} (hc : c ∈ comps) {cid : String}
    (f : ComponentInstance → ComponentInstance)
    (hcid : idStartsWith cid "gen_c" = true)
    (hcnot : idStartsWith c.id "gen_c" = false) :
    c ∈ updateComponent comps cid f := by
  refine mem_updateComponent_of_ne hc cid f (fun heq => ?_)
  rw [heq, hcid] at hcnot
  cases hcnot

lemma not_genc_append_invert (s : String) (h : idStartsWith s "gen_c" = false) :
    idStartsWith (s ++ "_invert") "gen_c" = false := by
  unfold idStartsWith at h ⊢
  rw [String.data_append]
  have hpat : ("gen_c" : String).data = ['g', 'e', 'n', '_', 'c'] := by decide
  have hsuf : ("_invert" : String).data = ['_', 'i', 'n', 'v', 'e', 'r', 't'] := by decide
  rw [hpat, hsuf]
  rw [hpat] at h
  match s.data, h with
  | [], h => decide
  | [a], h => simp [hasPrefixSeq]
  | [a, b], h => simp [hasPrefixSeq]
  | [a, b, c], h => simp [hasPrefixSeq]
  | [a, b, c, d], h => simp [hasPrefixSeq]
  | a :: b :: c :: d :: e :: rest, h =>
    simp only [List.cons_append, hasPrefixSeq] at h ⊢
    simpa using h

lemma ok_inj {α : Type} {a b : α} (h : (Except.ok a : Except String α) = .ok b) :
    a = b := by
  injection h

lemma bind_ok {α β : Type} {x : Except String α} {f : α → Except String β} {b : β}
    (h : (x >>= f) = .ok b) : ∃ a, x = .ok a ∧ f a = .ok b := by
  cases x with
  | error e => rw [except_bind_err] at h; exact Except.noConfusion h
  | ok a => rw [except_bind_ok] at h; exact ⟨a, rfl, h⟩

lemma setA_AB (x y : String) :
    setA (setA ([] : List (String × String)) "A" x) "B" y = [("A", x), ("B", y)] := by
  simp [setA]

lemma setA_ABout (x y z : String) :
    setA [("A", x), ("B", y)] "out" z = [("A", x), ("B", y), ("out", z)] := by
  simp [setA]

lemma setA_AY (x y : String) :
    setA [("A", x)] "Y" y = [("A", x), ("Y", y)] := by
  simp [setA]

lemma ensureDriverIfConstant_keeps {b : BitInfo} {d p : String} {st st' : AdapterState}
    (h : ensureDriverIfConstant b d p st = .ok st')
    {c : ComponentInstance} (hc : c ∈ st.components) : c ∈ st'.components := by
  unfold ensureDriverIfConstant at h
  split at h
  · cases ok_inj h; exact hc
  · split at h
    · cases ok_inj h; exact hc
    · split at h <;> (try dsimp only at h) <;> split at h <;>
        first
          | exact Except.noConfusion h
          | (cases ok_inj h; exact List.mem_append_left _ hc)

lemma normalizeBit_components {bit : YBit} {st : AdapterState}
    {r : BitInfo × AdapterState} (h : normalizeBit bit st = .ok r) :
    r.2.components = st.components := by
  unfold normalizeBit at h
  split at h
  · cases ok_inj h; rfl
  · split at h
    · cases ok_inj h; rfl
    · split at h
      · cases ok_inj h; rfl
      · split at h
        · cases ok_inj h; rfl
        · split at h
          · cases ok_inj h; rfl
          · exact Except.noConfusion h

lemma normalizeBits_fold_components :
    ∀ (bits : List YBit) (p r : List BitInfo × AdapterState),
    bits.foldlM (fun (acc : List BitInfo × AdapterState) bit => do
      let (info, st') ← normalizeBit bit acc.2
      pure (acc.1 ++ [info], st')) p = .ok r →
    r.2.components = p.2.components := by
  intro bits
  induction bits with
  | nil =>
    intro p r h
    rw [List.foldlM_nil] at h
    cases ok_inj h
    rfl
  | cons b tl ih =>
    intro p r h
    rw [List.foldlM_cons] at h
    obtain ⟨p', hstep, hrest⟩ := bind_ok h
    obtain ⟨⟨info, st'⟩, hnb, hpure⟩ := bind_ok hstep
    cases ok_inj hpure
    have h1 := ih _ _ hrest
    have h2 := normalizeBit_components hnb
    rw [h1]
    exact h2

lemma normalizeBits_components {bits : List YBit} {st : AdapterState}
    {r : List BitInfo × AdapterState} (h : normalizeBits bits st = .ok r) :
    r.2.components = st.components :=
  normalizeBits_fold_components bits ([], st) r h

lemma foldlM_keeps {α : Type} :
    ∀ (l : List α) (f : AdapterState → α → Except String AdapterState),
    (∀ s a s', a ∈ l → f s a = .ok s' →
      ∀ c ∈ s.components, idStartsWith c.id "gen_c" = false → c ∈ s'.components) →
    ∀ (s s' : AdapterState), l.foldlM f s = .ok s' →
    ∀ c ∈ s.components, idStartsWith c.id "gen_c" = false → c ∈ s'.components := by
  intro l
  induction l with
  | nil =>
    intro f hf s s' h c hc hcg
    rw [List.foldlM_nil] at h
    cases ok_inj h
    exact hc
  | cons a tl ih =>
    intro f hf s s' h c hc hcg
    rw [List.foldlM_cons] at h
    obtain ⟨s1, hstep, hrest⟩ := bind_ok h
    have h1 := hf s a s1 (List.mem_cons_self a tl) hstep c hc hcg
    exact ih f (fun s a s' ha => hf s a s' (List.mem_cons_of_mem _ ha)) s1 s' hrest c h1 hcg

lemma packBits_keeps :
    ∀ (fuel : Nat) (bits : List BitInfo) (size : Nat) (st : AdapterState)
      (r : String × AdapterState), packBits fuel bits size st = .ok r →
    ∀ c ∈ st.components, idStartsWith c.id "gen_c" = false → c ∈ r.2.components := by
  intro fuel
  induction fuel with
  | zero => intro bits size st r h; exact Except.noConfusion h
  | succ fuel ih =>
    intro bits size st r h c hc hcg
    simp only [packBits] at h
    split at h
    · exact Except.noConfusion h
    · split at h
      · cases ok_inj h; exact hc
      · try dsimp only at h
        split at h
        · cases ok_inj h; exact hc
        · try dsimp only at h
          split at h
          · dsimp only [idGenNext] at h
            obtain ⟨tpl, htpl, h⟩ := bind_ok h
            obtain ⟨nets2, hrs, h⟩ := bind_ok h
            cases ok_inj h
            exact List.mem_append_left _ hc
          · split at h
            · dsimp only [idGenNext] at h
              obtain ⟨makerTpl, hmt, h⟩ := bind_ok h
              obtain ⟨st2, hfold, h⟩ := bind_ok h
              obtain ⟨nets2, hrs, h⟩ := bind_ok h
              cases ok_inj h
              refine mem_updateComponent_of_not_genc ?_ _ (idStartsWith_genc_concat _) hcg
              refine foldlM_keeps _ _ ?_ _ _ hfold c (List.mem_append_left _ hc) hcg
              intro s a s' _ hstep c' hc' hg'
              obtain ⟨⟨subBus, sm⟩, hpb, hp⟩ := bind_ok hstep
              cases ok_inj hp
              exact mem_updateComponent_of_not_genc (ih _ _ _ _ hpb c' hc' hg') _
                (idStartsWith_genc_concat _) hg'
            · dsimp only [idGenNext] at h
              obtain ⟨makerDesc, hmd, h⟩ := bind_ok h
              obtain ⟨st2, hfold, h⟩ := bind_ok h
              obtain ⟨nets2, hrs, h⟩ := bind_ok h
              cases ok_inj h
              refine mem_updateComponent_of_not_genc ?_ _ (idStartsWith_genc_concat _) hcg
              refine foldlM_keeps _ _ ?_ _ _ hfold c (List.mem_append_left _ hc) hcg
              intro s a s' _ hstep c' hc' hg'
              obtain ⟨⟨bitId, sm⟩, hinner, hp⟩ := bind_ok hstep
              cases ok_inj hp
              refine mem_updateComponent_of_not_genc ?_ _ (idStartsWith_genc_concat _) hg'
              split at hinner
              · obtain ⟨sE, hE, hpure⟩ := bind_ok hinner
                have h2 : sE = sm := congrArg Prod.snd (ok_inj hpure)
                subst h2
                exact ensureDriverIfConstant_keeps hE hc'
              · try dsimp only at hinner
                obtain ⟨nets3, hrs3, hpure⟩ := bind_ok hinner
                have h2 := congrArg Prod.snd (ok_inj hpure)
                dsimp only at h2
                subst h2
                exact List.mem_append_left _ hc'

lemma unpackBits_keeps :
    ∀ (fuel : Nat) (busId : String) (targetBits : List BitInfo) (size : Nat)
      (st st' : AdapterState), unpackBits fuel busId targetBits size st = .ok st' →
    ∀ c ∈ st.components, idStartsWith c.id "gen_c" = false → c ∈ st'.components := by
  intro fuel
  induction fuel with
  | zero => intro _ _ _ _ _ h; exact Except.noConfusion h
  | succ fuel ih =>
    intro busId targetBits size st st' h c hc hcg
    simp only [unpackBits] at h
    split at h
    · split at h
      · split at h
        · split at h
          · cases ok_inj h; exact hc
          · obtain ⟨nets2, hrs, h⟩ := bind_ok h
            cases ok_inj h; exact hc
        · cases ok_inj h; exact hc
      · cases ok_inj h; exact hc
    · split at h
      · try dsimp only [idGenNext] at h
        obtain ⟨tpl, htpl, h⟩ := bind_ok h
        refine foldlM_keeps _ _ ?_ _ _ h c (List.mem_append_left _ hc) hcg
        intro s a s' _ hstep c' hc' hg'
        obtain ⟨nets2, hrs, h2⟩ := bind_ok hstep
        split at h2
        · refine ih _ _ _ _ _ h2 c' ?_ hg'
          exact mem_updateComponent_of_not_genc hc' _ (idStartsWith_genc_concat _) hg'
        · cases ok_inj h2
          exact mem_updateComponent_of_not_genc hc' _ (idStartsWith_genc_concat _) hg'
      · try dsimp only [idGenNext] at h
        obtain ⟨tpl, htpl, h⟩ := bind_ok h
        refine foldlM_keeps _ _ ?_ _ _ h c (List.mem_append_left _ hc) hcg
        intro s a s' _ hstep c' hc' hg'
        split at hstep
        · exact Except.noConfusion hstep
        · obtain ⟨nets2, hrs, hpure⟩ := bind_ok hstep
          cases ok_inj hpure
          exact mem_updateComponent_of_not_genc hc' _ (idStartsWith_genc_concat _) hg'

lemma self_ne_append_invert (s : String) : s ≠ s ++ "_invert" := by
  intro h
  have hlen := congrArg String.length h
  rw [String.length_append] at hlen
  have h7 : ("_invert" : String).length = 7 := rfl
  rw [h7] at hlen
  omega

lemma mem_updateComponent_self1 (comps : List ComponentInstance)
    (c : ComponentInstance) (hc : c ∈ comps) (cid : String)
    (f : ComponentInstance → ComponentInstance) (h1 : c.id = cid)
    (d : ComponentInstance) (hd : f c = d) :
    d ∈ updateComponent comps cid f := by
  subst h1
  rw [← hd]
  exact mem_updateComponent_self hc f

lemma mem_updateComponent_self2 (comps : List ComponentInstance)
    (c : ComponentInstance) (hc : c ∈ comps) (cid : String)
    (f g : ComponentInstance → ComponentInstance) (h1 : c.id = cid)
    (h2 : (f c).id = cid) (d : ComponentInstance) (hd : g (f c) = d) :
    d ∈ updateComponent (updateComponent comps cid f) cid g :=
  mem_updateComponent_self1 _ (f c)
    (mem_updateComponent_self1 _ c hc cid f h1 (f c) rfl) cid g h2 d hd

/-- C6: for every comparison cell of type `$lt`, `$gt`, `$le` or `$ge` that
the lowering pass accepts (cell names never use the generator's reserved
`gen_c` prefix), the pass instantiates the `LESSI_N` (less, signed) template
when the `A_SIGNED` parameter is positive and the `LESSU_N` (less, unsigned)
template when it is absent or zero, with `N` the resolved size of the wider
of `A_WIDTH`/`B_WIDTH`; for `$gt` and `$le` the packed A and B buses land on
the swapped ports (B on port `A`, A on port `B`), otherwise directly; and
for `$ge` and `$le` the comparator output net `<cell>_cmp_out` feeds a fresh
`NOT_1` gate `<cell>_invert` whose output net is what is unpacked onto the
cell's Y bits, while for `$lt` and `$gt` the comparator output itself is
unpacked onto Y. -/
theorem c6_comparison_cell_lowering (cellName : String) (cell : YCell)
    (st0 stFinal : AdapterState)
    (_hty : cell.ctype = "$lt" ∨ cell.ctype = "$gt" ∨ cell.ctype = "$le" ∨
      cell.ctype = "$ge")
    (hname : idStartsWith cellName "gen_c" = false)
    (h : lowerComparisonCell cellName cell st0 = .ok stFinal) :
    ∃ (size : Nat) (tpl : ComponentTemplate) (aPacked bPacked : String),
      resolveSize (max (parseParamInt (getA cell.parameters "A_WIDTH"))
        (parseParamInt (getA cell.parameters "B_WIDTH"))) = .ok size ∧
      getTemplate ((if parseParamInt (getA cell.parameters "A_SIGNED") > 0
        then "LESSI" else "LESSU") ++ "_" ++ toString size) = .ok tpl ∧
      ({ id := cellName, template := tpl,
         connections :=
           [("A", if cell.ctype = "$gt" ∨ cell.ctype = "$le"
              then bPacked else aPacked),
            ("B", if cell.ctype = "$gt" ∨ cell.ctype = "$le"
              then aPacked else bPacked),
            ("out", cellName ++ "_cmp_out")],
         metadata := {} } : ComponentInstance) ∈ stFinal.components ∧
      ((cell.ctype = "$ge" ∨ cell.ctype = "$le") →
        ({ id := cellName ++ "_invert", template := NOT_1,
           connections := [("A", cellName ++ "_cmp_out"),
                           ("Y", cellName ++ "_invert" ++ "_out")],
           metadata := {} } : ComponentInstance) ∈ stFinal.components ∧
        ∃ (yBits : List BitInfo) (stY : AdapterState),
          unpackBits PACK_FUEL (cellName ++ "_invert" ++ "_out") yBits 1 stY =
            .ok stFinal) ∧
      ((cell.ctype = "$lt" ∨ cell.ctype = "$gt") →
        ∃ (yBits : List BitInfo) (stY : AdapterState),
          unpackBits PACK_FUEL (cellName ++ "_cmp_out") yBits 1 stY =
            .ok stFinal) := by
  unfold lowerComparisonCell at h
  obtain ⟨size, hsize, h⟩ := bind_ok h
  obtain ⟨tpl, htpl, h⟩ := bind_ok h
  obtain ⟨aRaw, haRaw, h⟩ := bind_ok h
  obtain ⟨pA, hA, h⟩ := bind_ok h
  obtain ⟨aBits, st1⟩ := pA
  obtain ⟨bRaw, hbRaw, h⟩ := bind_ok h
  obtain ⟨pB, hB, h⟩ := bind_ok h
  obtain ⟨bBits, st2⟩ := pB
  obtain ⟨pPA, hPA, h⟩ := bind_ok h
  obtain ⟨aPacked, st3⟩ := pPA
  obtain ⟨pPB, hPB, h⟩ := bind_ok h
  obtain ⟨bPacked, st4⟩ := pPB
  obtain ⟨nets5, hrs5, h⟩ := bind_ok h
  obtain ⟨yRaw, hyRaw, h⟩ := bind_ok h
  have e1 : st1.components = st0.components ++ [instantiate tpl cellName] :=
    normalizeBits_components hA
  have e2 : st2.components = st1.components := normalizeBits_components hB
  have hm2 : instantiate tpl cellName ∈ st2.components := by
    rw [e2, e1]
    exact List.mem_append_right _ (List.mem_singleton.mpr rfl)
  have hm3 : instantiate tpl cellName ∈ st3.components :=
    packBits_keeps _ _ _ _ _ hPA _ hm2 hname
  have hm4 : instantiate tpl cellName ∈ st4.components :=
    packBits_keeps _ _ _ _ _ hPB _ hm3 hname
  refine ⟨size, tpl, aPacked, bPacked, hsize, ?_, ?_, ?_, ?_⟩
  · have ht := htpl
    simp only [decide_eq_true_eq] at ht
    exact ht
  · split at h
    · rename_i hinv
      obtain ⟨nets6, hrs6, h⟩ := bind_ok h
      obtain ⟨pY, hY, h⟩ := bind_ok h
      obtain ⟨yBits, stY⟩ := pY
      refine unpackBits_keeps _ _ _ _ _ _ h _ ?_ hname
      have hYc : stY.components = _ := normalizeBits_components hY
      rw [hYc]
      refine mem_updateComponent_of_ne ?_ _ _ (self_ne_append_invert cellName)
      refine List.mem_append_left _ ?_
      refine mem_updateComponent_self2 _ (instantiate tpl cellName) hm4 _ _ _
        rfl rfl _ ?_
      dsimp only [instantiate]
      rw [setA_AB, setA_ABout]
      simp only [Bool.or_eq_true, decide_eq_true_eq]
    · rename_i hinv
      obtain ⟨pY, hY, h⟩ := bind_ok h
      obtain ⟨yBits, stY⟩ := pY
      refine unpackBits_keeps _ _ _ _ _ _ h _ ?_ hname
      have hYc : stY.components = _ := normalizeBits_components hY
      rw [hYc]
      refine mem_updateComponent_self2 _ (instantiate tpl cellName) hm4 _ _ _
        rfl rfl _ ?_
      dsimp only [instantiate]
      rw [setA_AB, setA_ABout]
      simp only [Bool.or_eq_true, decide_eq_true_eq]
  · split at h
    · rename_i hinv
      intro _
      obtain ⟨nets6, hrs6, h⟩ := bind_ok h
      obtain ⟨pY, hY, h⟩ := bind_ok h
      obtain ⟨yBits, stY⟩ := pY
      refine ⟨?_, yBits, stY, h⟩
      refine unpackBits_keeps _ _ _ _ _ _ h _ ?_
        (not_genc_append_invert cellName hname)
      have hYc : stY.components = _ := normalizeBits_components hY
      rw [hYc]
      refine mem_updateComponent_self1 _
        ({ instantiate NOT_1 (cellName ++ "_invert") with
           connections := [("A", cellName ++ "_cmp_out")] }) ?_ _ _ rfl _ ?_
      · exact List.mem_append_right _ (List.mem_singleton.mpr rfl)
      · dsimp only [instantiate]
        rw [setA_AY]
    · rename_i hinv
      intro hd
      rcases hd with h1 | h1 <;> rw [h1] at hinv <;> exact absurd hinv (by decide)
  · split at h
    · rename_i hinv
      intro hd
      rcases hd with h1 | h1 <;> rw [h1] at hinv <;> exact absurd hinv (by decide)
    · rename_i hinv
      intro _
      obtain ⟨pY, hY, h⟩ := bind_ok h
      obtain ⟨yBits, stY⟩ := pY
      exact ⟨yBits, stY, h⟩

/-- Concrete `$le` comparison cell for the C6 witness: two 8-bit operands
(net bits 10..17 and 20..27) and a 1-bit Y (net bit 30), unsigned. -/
def c6Cell : YCell :=
  { ctype := "$le",
    parameters := [("A_WIDTH", .num 8), ("B_WIDTH", .num 8), ("A_SIGNED", .num 0)],
    connections :=
      [("A", [.num 10, .num 11, .num 12, .num 13, .num 14, .num 15, .num 16, .num 17]),
       ("B", [.num 20, .num 21, .num 22, .num 23, .num 24, .num 25, .num 26, .num 27]),
       ("Y", [.num 30])] }

theorem c6_comparison_cell_lowering_witness :
    ∃ stF, lowerComparisonCell "cmp0" c6Cell {} = .ok stF ∧
      ∃ (size : Nat) (tpl : ComponentTemplate) (aPacked bPacked : String),
        resolveSize (max (parseParamInt (getA c6Cell.parameters "A_WIDTH"))
          (parseParamInt (getA c6Cell.parameters "B_WIDTH"))) = .ok size ∧
        getTemplate ((if parseParamInt (getA c6Cell.parameters "A_SIGNED") > 0
          then "LESSI" else "LESSU") ++ "_" ++ toString size) = .ok tpl ∧
        ({ id := "cmp0", template := tpl,
           connections :=
             [("A", if c6Cell.ctype = "$gt" ∨ c6Cell.ctype = "$le"
                then bPacked else aPacked),
              ("B", if c6Cell.ctype = "$gt" ∨ c6Cell.ctype = "$le"
                then aPacked else bPacked),
              ("out", "cmp0" ++ "_cmp_out")],
           metadata := {} } : ComponentInstance) ∈ stF.components ∧
        ((c6Cell.ctype = "$ge" ∨ c6Cell.ctype = "$le") →
          ({ id := "cmp0" ++ "_invert", template := NOT_1,
             connections := [("A", "cmp0" ++ "_cmp_out"),
                             ("Y", "cmp0" ++ "_invert" ++ "_out")],
             metadata := {} } : ComponentInstance) ∈ stF.components ∧
          ∃ (yBits : List BitInfo) (stY : AdapterState),
            unpackBits PACK_FUEL ("cmp0" ++ "_invert" ++ "_out") yBits 1 stY =
              .ok stF) ∧
        ((c6Cell.ctype = "$lt" ∨ c6Cell.ctype = "$gt") →
          ∃ (yBits : List BitInfo) (stY : AdapterState),
            unpackBits PACK_FUEL ("cmp0" ++ "_cmp_out") yBits 1 stY =
              .ok stF) := by
  have hok : (lowerComparisonCell "cmp0" c6Cell {}).toOption.isSome = true := by
    decide
  rcases hr : lowerComparisonCell "cmp0" c6Cell {} with e | stF
  · rw [hr] at hok
    exact Bool.noConfusion hok
  · exact ⟨stF, rfl,
      c6_comparison_cell_lowering "cmp0" c6Cell {} stF (by decide) (by decide) hr⟩
